import Mathlib

/-!
Verification of the symbol-sign-on authorization-code lifecycle.

A shallow embedding of the core of the `symbol-sign-on` repository
(`packages/client/src`): the time/TTL utility, the PKCE challenge
computation, the Mongo-backed record store, and the OAuth-style handlers
(`authorize`, `verify-signature`, `token`, `userinfo`, `logout`).

Conventions:
* JavaScript strings become `String`, numbers become `Nat` (timestamps are
  milliseconds since epoch), `Date` values become `Nat`.
* `uuidv4()` is modelled by a deterministic fresh-name supply: the store
  carries a counter and `uuid n` is a string of length `n`, so distinct
  counter values give distinct identifiers.
* Fallible store writes whose failure the source catches and merely logs
  are given an explicit `Bool` argument telling whether the write succeeds
  (`true`) or throws (`false`).
* External collaborators (the WHATWG `URL` class, `jsonwebtoken.verify`,
  the blockchain signature check) are modelled at their call boundary.
-/

namespace SymbolSignOn

/-! ## Time utility (`packages/client/src/utils/time.ts`, `parseTimeToSeconds`) -/

/-- Numeric value of a list of decimal digit characters, most significant
first, as computed by JavaScript `parseInt(s, 10)` on an all-digit string. -/
def digitsToNat (ds : List Char) : Nat :=
  ds.foldl (fun a c => a * 10 + (c.toNat - '0'.toNat)) 0

/-- First-match semantics of the JavaScript regexp `/(\d+)c/` for a letter
`c`: scanning left to right, the first maximal digit run immediately
followed by `c`, returned as its numeric value.  `run` accumulates the
current digit run in reverse. -/
def findNumAux (c : Char) (run : List Char) : List Char → Option Nat
  | [] => none
  | y :: ys =>
    if y = c then
      if run.isEmpty then findNumAux c [] ys
      else some (digitsToNat run.reverse)
    else if y.isDigit then findNumAux c (y :: run) ys
    else findNumAux c [] ys

/-- The call `timeStr.match (regex of digits before c)` from the source, as the
captured numeric value. -/
def findNumBefore (c : Char) (s : List Char) : Option Nat :=
  findNumAux c [] s

/-- Function `parseTimeToSeconds` from `packages/client/src/utils/time.ts`:
pure-digit strings are seconds; otherwise the `d`/`h`/`m`/`s` components
are summed; the exact string `"0s"` gives `0`; any other zero total (and
the empty string) gives the default 3600. -/
def parseTimeToSeconds (timeStr : String) : Nat :=
  let defaultSeconds := 3600
  let cs := timeStr.data
  if cs.isEmpty then defaultSeconds
  else if cs.all Char.isDigit then digitsToNat cs
  else
    let days := findNumBefore 'd' cs
    let hours := findNumBefore 'h' cs
    let minutes := findNumBefore 'm' cs
    let seconds := findNumBefore 's' cs
    let totalSeconds :=
      (days.getD 0) * 86400 + (hours.getD 0) * 3600 +
      (minutes.getD 0) * 60 + (seconds.getD 0)
    if timeStr = "0s" then 0
    else if totalSeconds > 0 then totalSeconds else defaultSeconds

/-- The behaviour of `parseTimeToSeconds` as worded by the claim: a
pure-digit string is that many seconds; otherwise the recognized
components are summed; every other input whose recognized components sum
to zero returns the default 3600, with the single exception of the exact
string `"0s"`, which returns 0. -/
def claimTimeSpec (timeStr : String) : Nat :=
  let cs := timeStr.data
  if !cs.isEmpty && cs.all Char.isDigit then digitsToNat cs
  else if timeStr = "0s" then 0
  else
    let total :=
      ((findNumBefore 'd' cs).getD 0) * 86400 +
      ((findNumBefore 'h' cs).getD 0) * 3600 +
      ((findNumBefore 'm' cs).getD 0) * 60 +
      ((findNumBefore 's' cs).getD 0)
    if total = 0 then 3600 else total

/-! ## PKCE (`token.ts`, `calculatePKCEChallenge`)

`crypto.createHash('sha256').update(verifier).digest('base64url')` is
embedded as SHA-256 (FIPS 180-4) over the UTF-8 bytes of the verifier,
encoded with the unpadded base64url alphabet. -/

/-- Truncation to a 32-bit word. -/
def w32 (n : Nat) : Nat := n % 4294967296

/-- 32-bit rotate right. -/
def rotr (n x : Nat) : Nat := w32 ((x >>> n) ||| (x <<< (32 - n)))

def smallSigma0 (x : Nat) : Nat := (rotr 7 x) ^^^ (rotr 18 x) ^^^ (x >>> 3)
def smallSigma1 (x : Nat) : Nat := (rotr 17 x) ^^^ (rotr 19 x) ^^^ (x >>> 10)
def bigSigma0 (x : Nat) : Nat := (rotr 2 x) ^^^ (rotr 13 x) ^^^ (rotr 22 x)
def bigSigma1 (x : Nat) : Nat := (rotr 6 x) ^^^ (rotr 11 x) ^^^ (rotr 25 x)
def chFn (x y z : Nat) : Nat := (x &&& y) ^^^ ((x ^^^ 4294967295) &&& z)
def majFn (x y z : Nat) : Nat := (x &&& y) ^^^ (x &&& z) ^^^ (y &&& z)

/-- The 64 SHA-256 round constants. -/
def sha256K : List Nat :=
  [1116352408, 1899447441, 3049323471, 3921009573, 961987163, 1508970993,
   2453635748, 2870763221, 3624381080, 310598401, 607225278, 1426881987,
   1925078388, 2162078206, 2614888103, 3248222580, 3835390401, 4022224774,
   264347078, 604807628, 770255983, 1249150122, 1555081692, 1996064986,
   2554220882, 2821834349, 2952996808, 3210313671, 3336571891, 3584528711,
   113926993, 338241895, 666307205, 773529912, 1294757372, 1396182291,
   1695183700, 1986661051, 2177026350, 2456956037, 2730485921, 2820302411,
   3259730800, 3345764771, 3516065817, 3600352804, 4094571909, 275423344,
   430227734, 506948616, 659060556, 883997877, 958139571, 1322822218,
   1537002063, 1747873779, 1955562222, 2024104815, 2227730452, 2361852424,
   2428436474, 2756734187, 3204031479, 3329325298]

/-- The SHA-256 initial hash value. -/
def sha256H0 : List Nat :=
  [1779033703, 3144134277, 1013904242, 2773480762, 1359893119, 2600822924,
   528734635, 1541459225]

/-- Big-endian byte expansion of `n` into `k` bytes. -/
def toBytesBE (k n : Nat) : List Nat :=
  (List.range k).map (fun i => (n >>> (8 * (k - 1 - i))) % 256)

/-- Group a byte list into big-endian 32-bit words (trailing partial
groups dropped; inputs here are always multiples of 4). -/
def toWordsBE : List Nat → List Nat
  | b0 :: b1 :: b2 :: b3 :: rest => (((b0 * 256 + b1) * 256 + b2) * 256 + b3) :: toWordsBE rest
  | _ => []

/-- SHA-256 padding: append `0x80`, zeros to 56 mod 64, then the 8-byte
big-endian bit length. -/
def sha256pad (msg : List Nat) : List Nat :=
  let len := msg.length
  let padZeros := (119 - (len % 64)) % 64
  msg ++ [0x80] ++ List.replicate padZeros 0 ++ toBytesBE 8 (len * 8)

/-- Structural worker for `chunk64`: `cur` is the current chunk in
reverse, `k` the free capacity left in it. -/
def chunk64Go (cur : List Nat) (rest : List Nat) (k : Nat) : List (List Nat) :=
  match rest with
  | [] => if cur.isEmpty then [] else [cur.reverse]
  | x :: xs =>
    match k with
    | 0 => cur.reverse :: chunk64Go [x] xs 63
    | k + 1 => chunk64Go (x :: cur) xs k

/-- Split a list into 64-element chunks. -/
def chunk64 (l : List Nat) : List (List Nat) :=
  chunk64Go [] l 64

/-- Extend a 16-word block to the 64-word message schedule. -/
def buildW (ws : List Nat) : List Nat :=
  (List.range 48).foldl
    (fun w _ =>
      let n := w.length
      w ++ [w32 (smallSigma1 (w.getD (n - 2) 0) + w.getD (n - 7) 0 +
                 smallSigma0 (w.getD (n - 15) 0) + w.getD (n - 16) 0)])
    ws

/-- One SHA-256 round on the working variables. -/
def sha256Round (st : List Nat) (kw : Nat × Nat) : List Nat :=
  match st with
  | [a, b, c, d, e, f, g, h] =>
    let t1 := w32 (h + bigSigma1 e + chFn e f g + kw.1 + kw.2)
    let t2 := w32 (bigSigma0 a + majFn a b c)
    [w32 (t1 + t2), a, b, c, w32 (d + t1), e, f, g]
  | other => other

/-- Compression of one 16-word block into the running hash. -/
def sha256Block (H : List Nat) (block : List Nat) : List Nat :=
  let w := buildW block
  let fin := (sha256K.zip w).foldl sha256Round H
  List.zipWith (fun x y => w32 (x + y)) H fin

/-- SHA-256 of a byte list, as a 32-byte digest. -/
def sha256 (msg : List Nat) : List Nat :=
  let blocks := (chunk64 (sha256pad msg)).map toWordsBE
  ((blocks.foldl sha256Block sha256H0).map (toBytesBE 4)).flatten

/-- The base64url alphabet (RFC 4648 §5). -/
def b64urlChar (n : Nat) : Char :=
  "ABCDEFGHIJKLMNOPQRSTUVWXYZabcdefghijklmnopqrstuvwxyz0123456789-_".data.getD n 'A'

/-- Unpadded base64url encoding of a byte list, as in Node's
`digest('base64url')`. -/
def base64urlNoPad : List Nat → List Char
  | [] => []
  | [b0] => [b64urlChar (b0 >>> 2), b64urlChar ((b0 &&& 3) <<< 4)]
  | [b0, b1] =>
    [b64urlChar (b0 >>> 2), b64urlChar (((b0 &&& 3) <<< 4) ||| (b1 >>> 4)),
     b64urlChar ((b1 &&& 15) <<< 2)]
  | b0 :: b1 :: b2 :: rest =>
    [b64urlChar (b0 >>> 2), b64urlChar (((b0 &&& 3) <<< 4) ||| (b1 >>> 4)),
     b64urlChar (((b1 &&& 15) <<< 2) ||| (b2 >>> 6)), b64urlChar (b2 &&& 63)] ++
    base64urlNoPad rest

/-- UTF-8 bytes of one character. -/
def utf8Char (c : Char) : List Nat :=
  let n := c.toNat
  if n < 0x80 then [n]
  else if n < 0x800 then [0xC0 ||| (n >>> 6), 0x80 ||| (n &&& 0x3F)]
  else if n < 0x10000 then
    [0xE0 ||| (n >>> 12), 0x80 ||| ((n >>> 6) &&& 0x3F), 0x80 ||| (n &&& 0x3F)]
  else
    [0xF0 ||| (n >>> 18), 0x80 ||| ((n >>> 12) &&& 0x3F),
     0x80 ||| ((n >>> 6) &&& 0x3F), 0x80 ||| (n &&& 0x3F)]

/-- UTF-8 bytes of a string (`crypto .update` hashes the UTF-8 bytes). -/
def utf8Encode (s : String) : List Nat := (s.data.map utf8Char).flatten

/-- The value `base64url(SHA-256(utf8(verifier)))` without padding: the S256 branch
of `calculatePKCEChallenge`. -/
def s256Challenge (verifier : String) : String :=
  String.mk (base64urlNoPad (sha256 (utf8Encode verifier)))

/-- Function `calculatePKCEChallenge` from `token.ts`: method `"S256"` hashes the
verifier; any other method throws (`Except.error` carries the thrown
message). -/
def calculatePKCEChallenge (verifier method : String) : Except String String :=
  if method = "S256" then Except.ok (s256Challenge verifier)
  else Except.error ("Unsupported PKCE method: " ++ method)

/-! ## Data model (`packages/client/src/types/mongo.types.ts` and the
record shapes written by `db/mongo.ts` / the service handlers)

Timestamps (`Date`) are `Nat` milliseconds.  Optional TypeScript fields
are `Option`. -/

/-- Type `ClientDocument`: `trusted_redirect_uri` is a single string in the
declared type (`mongo.types.ts`). -/
structure ClientDoc where
  client_id : String
  trusted_redirect_uri : String
  createdAt : Nat
deriving Repr, DecidableEq

/-- Challenge record: the fields written by `handleAuthorize`
(`challenge`, `client_id`, `redirect_uri`) plus the timestamps the store
layer adds on insert. -/
structure ChallengeDoc where
  challenge : String
  client_id : String
  redirect_uri : String
  expires_at : Nat
  created_at : Nat
  updated_at : Nat
deriving Repr, DecidableEq

/-- AuthCode record as written by `handleVerifySignature` and consumed by
`handleAuthorizationCodeGrant`. -/
structure AuthCodeDoc where
  client_id : String
  auth_code : String
  symbol_address : String
  symbol_public_key : String
  pkce_challenge : Option String
  pkce_challenge_method : Option String
  used : Bool
  used_at : Option Nat
  expires_at : Nat
  created_at : Nat
  updated_at : Nat
deriving Repr, DecidableEq

/-- Session record as written by the token grants. -/
structure SessionDoc where
  session_id : String
  client_id : String
  refresh_token : String
  access_token : String
  symbol_address : String
  symbol_public_key : String
  revoked : Bool
  revoked_at : Option Nat
  expires_at : Nat
  created_at : Nat
  updated_at : Nat
deriving Repr, DecidableEq

/-- Access-token blacklist entry (`setAccessTokenBlacklist` value). -/
structure BlacklistDoc where
  jwt_id : String
  revoked_at : Nat
deriving Repr, DecidableEq

/-- Environment-derived configuration.  `production` is
`NODE_ENV === 'production'`; the expirations are in seconds, already run
through `parseTimeToSeconds`. -/
structure Config where
  production : Bool
  jwtExpiresIn : Nat
  challengeExpiration : Nat
  authcodeExpiration : Nat
  refreshTokenExpiration : Nat
  symbolNetworkType : String
deriving Repr, DecidableEq

/-- The backing store plus the ambient execution context: `fresh` is the
deterministic `uuidv4()` supply, `now` the current `Date.now()` in
milliseconds.  Lists keep insertion order; `findOne` is first match in
that order, like a Mongo collection scan. -/
structure Store where
  clients : List ClientDoc
  challenges : List ChallengeDoc
  authCodes : List AuthCodeDoc
  sessions : List SessionDoc
  blacklist : List BlacklistDoc
  fresh : Nat
  now : Nat
deriving Repr, DecidableEq

/-- Deterministic model of `uuidv4()`: the `n`-th fresh identifier.  Its
length is `n`, so identifiers drawn at distinct counter values differ. -/
def uuid (n : Nat) : String := String.mk (List.replicate n 'u')

/-- Update the first element satisfying `p` (Mongo `updateOne` / `$set`). -/
def modifyFirst (p : α → Bool) (f : α → α) : List α → List α
  | [] => []
  | x :: xs => if p x then f x :: xs else x :: modifyFirst p f xs

/-! ## Store operations (`packages/client/src/db/mongo.ts`) -/

/-- Store read `Clients.findOne({ client_id })`. -/
def findClient (st : Store) (clientId : String) : Option ClientDoc :=
  st.clients.find? (fun c => c.client_id = clientId)

/-- Store read `findChallenge`: `Challenges.findOne({ client_id, challenge })`. -/
def findChallenge (st : Store) (clientId challenge : String) : Option ChallengeDoc :=
  st.challenges.find? (fun d => d.client_id = clientId && d.challenge = challenge)

/-- Store write `deleteChallenge`: `Challenges.deleteOne({ client_id, challenge })`. -/
def deleteChallenge (st : Store) (clientId challenge : String) : Store :=
  { st with challenges :=
      st.challenges.eraseP (fun d => d.client_id = clientId && d.challenge = challenge) }

/-- Store write `setChallenge(key, doc, expiresIn)`: persist a challenge record with a
TTL of `expiresIn` seconds (store write with `expires_at = now +
expiresIn`, as every insert helper in `db/mongo.ts` computes it). -/
def setChallenge (st : Store) (challenge clientId redirectUri : String)
    (expiresIn : Nat) : Store :=
  { st with challenges := st.challenges ++
      [{ challenge := challenge, client_id := clientId, redirect_uri := redirectUri,
         expires_at := st.now + expiresIn * 1000,
         created_at := st.now, updated_at := st.now }] }

/-- Store read `findAuthCode`: `AuthCodes.findOne({ client_id, auth_code })`. -/
def findAuthCode (st : Store) (clientId authCode : String) : Option AuthCodeDoc :=
  st.authCodes.find? (fun d => d.client_id = clientId && d.auth_code = authCode)

/-- Store write `insertAuthCode(doc, expiresIn)`: append with
`expires_at = now + expiresIn * 1000` and both timestamps `now`. -/
def insertAuthCode (st : Store) (clientId authCode address publicKey : String)
    (pkceChallenge pkceMethod : Option String) (expiresIn : Nat) : Store :=
  { st with authCodes := st.authCodes ++
      [{ client_id := clientId, auth_code := authCode,
         symbol_address := address, symbol_public_key := publicKey,
         pkce_challenge := pkceChallenge, pkce_challenge_method := pkceMethod,
         used := false, used_at := none,
         expires_at := st.now + expiresIn * 1000,
         created_at := st.now, updated_at := st.now }] }

/-- Store write `updateAuthCode(clientId, authCode, { used: true, used_at })`:
`updateOne` + `$set` on the first match. -/
def updateAuthCodeUsed (st : Store) (clientId authCode : String) : Store :=
  { st with authCodes :=
      (modifyFirst (fun d => d.client_id = clientId && d.auth_code = authCode)
        (fun d => { d with used := true, used_at := some st.now }) st.authCodes) }

/-- Store read `findSessionByRefreshToken`: `Sessions.findOne({ refresh_token })`. -/
def findSessionByRefreshToken (st : Store) (refreshToken : String) : Option SessionDoc :=
  st.sessions.find? (fun s => s.refresh_token = refreshToken)

/-- Store write `insertSession(doc)` with the default 30-day TTL config value. -/
def insertSession (st : Store) (cfg : Config)
    (sessionId clientId refreshToken accessToken address publicKey : String) : Store :=
  { st with sessions := st.sessions ++
      [{ session_id := sessionId, client_id := clientId,
         refresh_token := refreshToken, access_token := accessToken,
         symbol_address := address, symbol_public_key := publicKey,
         revoked := false, revoked_at := none,
         expires_at := st.now + cfg.refreshTokenExpiration * 1000,
         created_at := st.now, updated_at := st.now }] }

/-- Session-list effect of `updateSession(sessionId, { revoked: true,
revoked_at: t })`: `updateOne` + `$set` on the first match. -/
def revokeFirst (sessionId : String) (t : Nat) (l : List SessionDoc) :
    List SessionDoc :=
  modifyFirst (fun s => s.session_id = sessionId)
    (fun s => { s with revoked := true, revoked_at := some t }) l

/-- Store write `updateSession(sessionId, { revoked: true, revoked_at })`. -/
def updateSessionRevoke (st : Store) (sessionId : String) : Store :=
  { st with sessions := revokeFirst sessionId st.now st.sessions }

/-- Store write `setAccessTokenBlacklist(jwtId, doc)`: a keyed overwrite (Redis
`SET`), recording `{ jwt_id, revoked_at: now }` under the token. -/
def setAccessTokenBlacklist (st : Store) (jwtId : String) : Store :=
  if (st.blacklist.find? (fun b => b.jwt_id = jwtId)).isSome then
    { st with blacklist :=
        (modifyFirst (fun b => b.jwt_id = jwtId)
          (fun b => { b with revoked_at := st.now }) st.blacklist) }
  else
    { st with blacklist := st.blacklist ++ [{ jwt_id := jwtId, revoked_at := st.now }] }

/-! ## Model of the WHATWG `URL` class, as far as `isValidRedirectUri`
consumes it (`new URL(uri)` throwing on parse failure, `.protocol`,
`.hostname`). -/

structure URLParts where
  protocol : String
  hostname : String
deriving Repr, DecidableEq

/-- Scheme characters after the first: letter, digit, `+`, `-`, `.`. -/
def isSchemeChar (c : Char) : Bool :=
  c.isAlpha || c.isDigit || c = '+' || c = '-' || c = '.'

/-- Simplified WHATWG URL parse: a letter-initiated scheme up to the
first `:`; for `//`-authority forms the hostname runs to the next
delimiter and is lowercased; the special schemes `http`/`https` require a
nonempty host.  This models the platform `URL` constructor on the inputs
the handlers see. -/
def parseURL (s : String) : Option URLParts :=
  let cs := s.data
  let scheme := cs.takeWhile (fun c => c ≠ ':')
  let rest := cs.dropWhile (fun c => c ≠ ':')
  match rest with
  | [] => none
  | _ :: afterColon =>
    if scheme.isEmpty then none
    else if !(scheme.headD 'a').isAlpha then none
    else if !(scheme.all isSchemeChar) then none
    else
      let protocol := String.mk (scheme.map Char.toLower) ++ ":"
      match afterColon with
      | '/' :: '/' :: hostAndMore =>
        let host := hostAndMore.takeWhile
          (fun c => c ≠ '/' && c ≠ ':' && c ≠ '?' && c ≠ '#')
        if host.isEmpty && (protocol = "http:" || protocol = "https:") then none
        else some { protocol := protocol, hostname := String.mk (host.map Char.toLower) }
      | _ =>
        if protocol = "http:" || protocol = "https:" then none
        else some { protocol := protocol, hostname := "" }

/-! ## `authorize` service (`packages/client/src/services/authorize.ts`) -/

/-- An Express query value: absent, a single string, or an array. -/
inductive QueryVal where
  | missing
  | one (s : String)
  | many (vs : List String)
deriving Repr, DecidableEq

/-- Function `isValidRedirectUri` from `authorize.ts`. -/
def isValidRedirectUri (cfg : Config) (uri : String) : Bool :=
  match parseURL uri with
  | none => false
  | some url =>
    if cfg.production && url.protocol ≠ "https:" then false
    else if url.protocol = "http:" &&
        !(url.hostname = "localhost" || url.hostname = "127.0.0.1") then false
    else true

/-- Result of `validateAuthorizeParams`. -/
inductive ParamsResult where
  | ok (client_id redirect_uri : String)
  | invalid (errorCode message : String)
deriving Repr, DecidableEq

/-- Function `validateAuthorizeParams` from `authorize.ts`. -/
def validateAuthorizeParams (cfg : Config)
    (response_type client_id redirect_uri : QueryVal) : ParamsResult :=
  match response_type, client_id, redirect_uri with
  | .missing, _, _ | _, .missing, _ | _, _, .missing =>
    .invalid "invalid_request"
      "Missing required parameters: response_type, client_id, redirect_uri"
  | .many _, _, _ | _, .many _, _ | _, _, .many _ =>
    .invalid "invalid_request" "Parameters must be single values, not arrays"
  | .one rt, .one cid, .one ruri =>
    if rt ≠ "code" then
      .invalid "unsupported_response_type" "Only 'code' response_type is supported"
    else if cid.length = 0 || ruri.length = 0 then
      .invalid "invalid_request" "client_id and redirect_uri cannot be empty"
    else if !isValidRedirectUri cfg ruri then
      .invalid "invalid_request" "redirect_uri must be a valid URL"
    else .ok cid ruri

/-- JavaScript `String.prototype.includes`: substring containment. -/
def strIncludes (hay needle : String) : Bool :=
  decide (needle.data <:+: hay.data)

/-- Result of `validateClient`. -/
inductive ClientCheck where
  | valid
  | invalid (statusCode : Nat) (errorCode message : String)
deriving Repr, DecidableEq

/-- Function `validateClient` from `authorize.ts`: looks up the client and tests
`client.trusted_redirect_uri.includes(redirectUri)` — on the declared
single-string field this is substring containment. -/
def validateClient (st : Store) (clientId redirectUri : String) : ClientCheck :=
  match findClient st clientId with
  | none =>
    .invalid 400 "unauthorized_client" "Client ID is not registered or has no trusted URI"
  | some client =>
    if client.trusted_redirect_uri = "" then
      .invalid 400 "unauthorized_client" "Client ID is not registered or has no trusted URI"
    else if !strIncludes client.trusted_redirect_uri redirectUri then
      .invalid 400 "invalid_request" "redirect_uri does not match any trusted URI"
    else .valid

/-- Response of `/oauth/authorize`. -/
inductive AuthorizeResult where
  | ok (client_id redirect_uri challenge : String)
  | err (status : Nat) (error error_description : String)
deriving Repr, DecidableEq

/-- Handler `handleAuthorize`: validate params and client, then persist
`{ challenge, client_id, redirect_uri }` with the hard-coded
`CHALLENGE_EXPIRES_IN = 300` seconds and answer
`{ client_id, redirect_uri, challenge }`. -/
def handleAuthorize (cfg : Config) (st : Store)
    (response_type client_id redirect_uri : QueryVal) : AuthorizeResult × Store :=
  match validateAuthorizeParams cfg response_type client_id redirect_uri with
  | .invalid code msg => (.err 400 code msg, st)
  | .ok cid ruri =>
    match validateClient st cid ruri with
    | .invalid status code msg => (.err status code msg, st)
    | .valid =>
      let challenge := uuid st.fresh
      let st1 := setChallenge st challenge cid ruri 300
      (.ok cid ruri challenge, { st1 with fresh := st.fresh + 1 })

/-! ## `verify-signature` service
(`packages/client/src/services/verify-signature.ts`)

The blockchain deserialization/signature check (`verifySignature`) is the
external collaborator; the handler is modelled from the point where it
has produced the extracted `SignatureParams` (a thrown verification error
is a 400 upstream of everything modelled here). -/

/-- The parameters `verifySignature` extracts from a valid signed
transaction: verified signer identity plus the JSON fields of the
embedded message. -/
structure SignatureParams where
  clientId : String
  publicKey : String
  address : String
  challenge : String
  state : Option String
  pkce_challenge : Option String
  pkce_challenge_method : Option String
deriving Repr, DecidableEq

/-- Response of `/oauth/verify-signature`. -/
inductive VerifyResult where
  | redirect (base code : String) (state : Option String)
  | err (status : Nat) (error : String)
deriving Repr, DecidableEq

/-- Handler `handleVerifySignature` after successful signature verification:
client lookup, challenge lookup, AuthCode mint (PKCE and state taken from
`signatureParams`), best-effort challenge delete (`deleteOk` models the
caught store failure), redirect carrying `code` and the message `state`. -/
def handleVerifySignature (cfg : Config) (st : Store) (params : SignatureParams)
    (deleteOk : Bool) : VerifyResult × Store :=
  match findClient st params.clientId with
  | none => (.err 400 "Invalid client_id", st)
  | some clientDoc =>
    match findChallenge st params.clientId params.challenge with
    | none => (.err 400 "Invalid or expired challenge", st)
    | some _ =>
      let authCode := uuid st.fresh
      let st1 := insertAuthCode st params.clientId authCode params.address
        params.publicKey params.pkce_challenge params.pkce_challenge_method
        cfg.authcodeExpiration
      let st2 := if deleteOk then deleteChallenge st1 params.clientId params.challenge
                 else st1
      (.redirect clientDoc.trusted_redirect_uri authCode params.state,
       { st2 with fresh := st.fresh + 1 })

/-! ## `token` service (`packages/client/src/services/token.ts`) -/

/-- Response of `/oauth/token`. -/
inductive TokenResult where
  | ok (access_token refresh_token : String) (expires_in : Nat)
  | err (status : Nat) (error : String) (error_description : Option String)
deriving Repr, DecidableEq

/-- Handler `handleAuthorizationCodeGrant`: AuthCode lookup and used-check, PKCE
verification, then token issue; `updateOk` models the caught failure of
the `used`-flag update, `insertOk` that of the session insert. -/
def handleAuthorizationCodeGrant (cfg : Config) (st : Store)
    (authCode clientId : String) (pkceCodeVerifier : Option String)
    (updateOk insertOk : Bool) : TokenResult × Store :=
  match findAuthCode st clientId authCode with
  | none => (.err 400 "Invalid or used code" none, st)
  | some d =>
    if d.used then (.err 400 "Invalid or used code" none, st)
    else
      let issue : TokenResult × Store :=
        let accessToken := uuid st.fresh
        let refreshToken := uuid (st.fresh + 1)
        let st1 := if updateOk then updateAuthCodeUsed st clientId authCode else st
        let st2 := if insertOk then
            insertSession st1 cfg (uuid (st.fresh + 2)) clientId refreshToken
              accessToken d.symbol_address d.symbol_public_key
          else st1
        (.ok accessToken refreshToken cfg.jwtExpiresIn, { st2 with fresh := st.fresh + 3 })
      match d.pkce_challenge with
      | none => issue
      | some storedChallenge =>
        match pkceCodeVerifier with
        | none =>
          (.err 400 "invalid_grant"
            (some "PKCE code_verifier is required but was not supplied"), st)
        | some v =>
          if d.pkce_challenge_method = some "S256" then
            if s256Challenge v ≠ storedChallenge then
              (.err 400 "invalid_grant"
                (some "code_verifier does not match code_challenge"), st)
            else issue
          else
            (.err 400 "invalid_grant"
              (some ("Unsupported PKCE method: " ++
                (d.pkce_challenge_method.getD "undefined"))), st)

/-- Handler `handleRefreshTokenGrant`: session lookup and revoked-check, then
revoke-and-rotate; `revokeOk` models the caught failure of the old-session
revocation, `insertOk` that of the new-session insert. -/
def handleRefreshTokenGrant (cfg : Config) (st : Store)
    (refreshToken clientId : String) (revokeOk insertOk : Bool) :
    TokenResult × Store :=
  match findSessionByRefreshToken st refreshToken with
  | none => (.err 400 "Invalid or revoked session" none, st)
  | some s =>
    if s.revoked then (.err 400 "Invalid or revoked session" none, st)
    else
      let accessToken := uuid st.fresh
      let newRefreshToken := uuid (st.fresh + 1)
      let st1 := if revokeOk then updateSessionRevoke st s.session_id else st
      let st2 := if insertOk then
          insertSession st1 cfg (uuid (st.fresh + 2)) clientId newRefreshToken
            accessToken s.symbol_address s.symbol_public_key
        else st1
      (.ok accessToken newRefreshToken cfg.jwtExpiresIn, { st2 with fresh := st.fresh + 3 })

/-! ## `userinfo` service (`packages/client/src/services/userinfo.ts`) and
`verifyAndRevokeJWT` (`utils/jwt.ts`)

`jwt.verify(token, JWT_SECRET)` is the external collaborator, modelled as
an oracle `verify : String → Option JWTPayload` (`none` = the library
threw: invalid or expired). -/

structure JWTPayload where
  sub : String
  pub : String
  client_id : String
deriving Repr, DecidableEq

/-- Function `verifyAndRevokeJWT`: on verification failure the token is added to
the blacklist and `null` is returned. -/
def verifyAndRevokeJWT (verify : String → Option JWTPayload) (st : Store)
    (jwtId : String) : Option JWTPayload × Store :=
  match verify jwtId with
  | some payload => (some payload, st)
  | none => (none, setAccessTokenBlacklist st jwtId)

/-- Response of `/oauth/userinfo`. -/
inductive UserinfoResult where
  | ok (address publicKey network : String)
  | err (status : Nat) (error : String) (error_description : Option String)
deriving Repr, DecidableEq

/-- Check `auth.startsWith('Bearer ')`, over the character list. -/
def startsWithBearer (auth : String) : Bool :=
  auth.data.take 7 = "Bearer ".data

/-- JavaScript `trim`: strip whitespace from both ends. -/
def jsTrimChars (l : List Char) : List Char :=
  ((l.dropWhile Char.isWhitespace).reverse.dropWhile Char.isWhitespace).reverse

/-- Token extraction `auth.replace('Bearer ', '').trim()` on a header
that starts with `"Bearer "`: the first occurrence is that prefix, so
this drops the 7 prefix characters and trims. -/
def bearerToken (auth : String) : String :=
  String.mk (jsTrimChars (auth.data.drop 7))

/-- Handler `handleUserinfo`: bearer-header check, then `verifyAndRevokeJWT`. -/
def handleUserinfo (cfg : Config) (verify : String → Option JWTPayload)
    (st : Store) (authHeader : Option String) : UserinfoResult × Store :=
  match authHeader with
  | none => (.err 401 "Missing or invalid Authorization header" none, st)
  | some auth =>
    if !startsWithBearer auth then
      (.err 401 "Missing or invalid Authorization header" none, st)
    else
      let token := bearerToken auth
      match verifyAndRevokeJWT verify st token with
      | (none, st1) =>
        (.err 401 "invalid_token" (some "The access token is invalid or has expired"), st1)
      | (some payload, st1) =>
        (.ok payload.sub payload.pub cfg.symbolNetworkType, st1)

/-! ## `logout` service -/

/-- Response of `/oauth/logout`. -/
inductive LogoutResult where
  | ok
  | err (status : Nat) (error : String)
deriving Repr, DecidableEq

/-- Handler `handleLogout`: find by refresh token, reject revoked, best-effort
revoke (`revokeOk` models the caught store failure). -/
def handleLogout (st : Store) (refreshToken : Option String) (revokeOk : Bool) :
    LogoutResult × Store :=
  match refreshToken with
  | none => (.err 400 "Missing refresh_token", st)
  | some rt =>
    if rt = "" then (.err 400 "Missing refresh_token", st)
    else
      match findSessionByRefreshToken st rt with
      | none => (.err 400 "Invalid refresh_token", st)
      | some s =>
        if s.revoked then (.err 400 "Session already revoked", st)
        else
          let st1 := if revokeOk then updateSessionRevoke st s.session_id else st
          (.ok, st1)

/-! ## Request steps

One inbound request = one `Op`; `step` is its effect on the store,
used to state properties over arbitrary interleaved traffic. -/

inductive Op where
  | authorize (response_type client_id redirect_uri : QueryVal)
  | verifySig (params : SignatureParams) (deleteOk : Bool)
  | codeGrant (code clientId : String) (verifier : Option String) (updateOk insertOk : Bool)
  | refreshGrant (refreshToken clientId : String) (revokeOk insertOk : Bool)
  | userinfo (authHeader : Option String)
  | logout (refreshToken : Option String) (revokeOk : Bool)
deriving Repr

/-- Store effect of one request. -/
def step (cfg : Config) (verify : String → Option JWTPayload) (st : Store) :
    Op → Store
  | .authorize rt cid ruri => (handleAuthorize cfg st rt cid ruri).2
  | .verifySig params deleteOk => (handleVerifySignature cfg st params deleteOk).2
  | .codeGrant code cid v u i => (handleAuthorizationCodeGrant cfg st code cid v u i).2
  | .refreshGrant rt cid r i => (handleRefreshTokenGrant cfg st rt cid r i).2
  | .userinfo h => (handleUserinfo cfg verify st h).2
  | .logout rt r => (handleLogout st rt r).2

/-! ## Expiry-erasure helper (used to show consumers never read
`expires_at`) -/

/-- Rewrite every stored record's `expires_at` to `t`, leaving everything
else untouched. -/
def setAllExpiry (t : Nat) (st : Store) : Store :=
  { st with
    challenges := st.challenges.map (fun d => { d with expires_at := t }),
    authCodes := st.authCodes.map (fun d => { d with expires_at := t }),
    sessions := st.sessions.map (fun s => { s with expires_at := t }) }

/-! ## Concrete fixtures for witnesses and counterexamples -/

/-- A development configuration: `CHALLENGE_EXPIRATION=3m` (180 s),
`AUTHCODE_EXPIRATION=2m`, `JWT_EXPIRES_IN=1h`, 30-day refresh TTL. -/
def cfgT : Config :=
  { production := false, jwtExpiresIn := 3600, challengeExpiration := 180,
    authcodeExpiration := 120, refreshTokenExpiration := 2592000,
    symbolNetworkType := "testnet" }

/-- A registered client whose single trusted redirect URI is
`https://a.com/cb`. -/
def clientA : ClientDoc :=
  { client_id := "clientA", trusted_redirect_uri := "https://a.com/cb", createdAt := 0 }

/-- Base store: one registered client, empty artifact collections,
`uuid` counter at 5, clock at 1000 ms. -/
def stBase : Store :=
  { clients := [clientA], challenges := [], authCodes := [], sessions := [],
    blacklist := [], fresh := 5, now := 1000 }

/-- An AuthCode whose `expires_at` (5 ms) is long past the clock of
`stBase` (1000 ms) but which the TTL reaper has not deleted yet. -/
def expiredAuthCode : AuthCodeDoc :=
  { client_id := "clientA", auth_code := "codeX", symbol_address := "ADDR",
    symbol_public_key := "PUB", pkce_challenge := none,
    pkce_challenge_method := none, used := false, used_at := none,
    expires_at := 5, created_at := 1, updated_at := 1 }

/-- An expired Challenge record (`expires_at` 5 ms, clock 1000 ms). -/
def expiredChallenge : ChallengeDoc :=
  { challenge := "chalX", client_id := "clientA",
    redirect_uri := "https://a.com/cb", expires_at := 5,
    created_at := 1, updated_at := 1 }

/-- An expired but unrevoked Session (`expires_at` 5 ms, clock 1000 ms). -/
def expiredSession : SessionDoc :=
  { session_id := "sid1", client_id := "clientA", refresh_token := "R",
    access_token := "AT", symbol_address := "ADDR", symbol_public_key := "PUB",
    revoked := false, revoked_at := none, expires_at := 5,
    created_at := 1, updated_at := 1 }

/-- Store holding only expired (but not yet reaped) artifacts. -/
def stExpired : Store :=
  { stBase with
    challenges := [expiredChallenge],
    authCodes := [expiredAuthCode],
    sessions := [expiredSession] }

/-- A live Challenge for the verify-signature scenarios. -/
def liveChallenge : ChallengeDoc :=
  { challenge := "chal1", client_id := "clientA",
    redirect_uri := "https://a.com/cb", expires_at := 999999999,
    created_at := 1, updated_at := 1 }

/-- Store with one live Challenge. -/
def stChal : Store := { stBase with challenges := [liveChallenge] }

/-- Extracted signature parameters whose embedded message carries PKCE
material and a state. -/
def paramsPK (pk : String) : SignatureParams :=
  { clientId := "clientA", publicKey := "PUB", address := "ADDR",
    challenge := "chal1", state := some "st8", pkce_challenge := some pk,
    pkce_challenge_method := some "S256" }

/-- A live, unused AuthCode without PKCE binding. -/
def liveAuthCode : AuthCodeDoc :=
  { client_id := "clientA", auth_code := "codeA", symbol_address := "ADDR",
    symbol_public_key := "PUB", pkce_challenge := none,
    pkce_challenge_method := none, used := false, used_at := none,
    expires_at := 999999999, created_at := 1, updated_at := 1 }

/-- Store with one live AuthCode. -/
def stCode : Store := { stBase with authCodes := [liveAuthCode] }

/-- A live, unrevoked Session with refresh token `"R"`. -/
def liveSession : SessionDoc :=
  { session_id := "sid1", client_id := "clientA", refresh_token := "R",
    access_token := "AT", symbol_address := "ADDR", symbol_public_key := "PUB",
    revoked := false, revoked_at := none, expires_at := 999999999,
    created_at := 1, updated_at := 1 }

/-- Store with one live Session. -/
def stSess : Store := { stBase with sessions := [liveSession] }

/-- Invariant: in session list `l`, the first session holding refresh
token `R` (if any) is revoked — `R` is dead for the refresh grant. -/
def deadL (R : String) (l : List SessionDoc) : Prop :=
  ∀ s, l.find? (fun x => x.refresh_token = R) = some s → s.revoked = true

/-- Well-formedness of a session list against the `uuid` counter `n`:
all stored refresh tokens and session ids are shorter than `n` (so
future `uuid` draws are fresh), and session ids are unique (the store's
unique index on `session_id`). -/
def wfL (l : List SessionDoc) (n : Nat) : Prop :=
  (∀ s ∈ l, s.refresh_token.length < n ∧ s.session_id.length < n) ∧
  l.Pairwise (fun a b => a.session_id ≠ b.session_id)

/-- Store-level session well-formedness. -/
def sessionsWF (st : Store) : Prop := wfL st.sessions st.fresh

/-- Token `R` is permanently unusable in `st`: dead now, and the store is
well-formed with `R` shorter than the counter so no future session can
reintroduce it. -/
def tokenDead (R : String) (st : Store) : Prop :=
  deadL R st.sessions ∧ wfL st.sessions st.fresh ∧ R.length < st.fresh

/-- A verification oracle that rejects every bearer token. -/
def rejectAll : String → Option JWTPayload := fun _ => none

/-- The AuthCode record `handleVerifySignature` mints: identity from the
verified signer, PKCE fields from the artifact's embedded message. -/
def mintedAuthCode (cfg : Config) (st : Store) (params : SignatureParams) :
    AuthCodeDoc :=
  { client_id := params.clientId, auth_code := uuid st.fresh,
    symbol_address := params.address, symbol_public_key := params.publicKey,
    pkce_challenge := params.pkce_challenge,
    pkce_challenge_method := params.pkce_challenge_method,
    used := false, used_at := none,
    expires_at := st.now + cfg.authcodeExpiration * 1000,
    created_at := st.now, updated_at := st.now }

/-- The Session record the refresh grant inserts for the rotated pair,
from the rotation arm of `handleRefreshTokenGrant`. -/
def mintedSession (cfg : Config) (st : Store) (cid : String)
    (s0 : SessionDoc) : SessionDoc :=
  { session_id := uuid (st.fresh + 2), client_id := cid,
    refresh_token := uuid (st.fresh + 1), access_token := uuid st.fresh,
    symbol_address := s0.symbol_address,
    symbol_public_key := s0.symbol_public_key,
    revoked := false, revoked_at := none,
    expires_at := st.now + cfg.refreshTokenExpiration * 1000,
    created_at := st.now, updated_at := st.now }

/-- Signature parameters presenting the expired challenge of
`stExpired`. -/
def paramsExpired : SignatureParams :=
  { clientId := "clientA", publicKey := "PUB", address := "ADDR",
    challenge := "chalX", state := none, pkce_challenge := none,
    pkce_challenge_method := none }

/-- An AuthCode bound by PKCE to the RFC 7636 example verifier's S256
challenge. -/
def pkceAuthCode : AuthCodeDoc :=
  { client_id := "clientA", auth_code := "codeP", symbol_address := "ADDR",
    symbol_public_key := "PUB",
    pkce_challenge := some "E9Melhoa2OwvFrEMTJguCHaoeK1t8URWbuGJSstw-cM",
    pkce_challenge_method := some "S256", used := false, used_at := none,
    expires_at := 999999999, created_at := 1, updated_at := 1 }

/-- Store with one live PKCE-bound AuthCode. -/
def stPkce : Store := { stBase with authCodes := [pkceAuthCode] }

end SymbolSignOn

namespace SymbolSignOn

/-! ## General list lemmas for the store operations -/

/-- Reduction of `modifyFirst` at a matching head. -/
theorem modifyFirst_cons_pos {q : α → Bool} {f : α → α} {x : α} {xs : List α}
    (hqx : q x = true) : modifyFirst q f (x :: xs) = f x :: xs := by
  simp [modifyFirst, hqx]

/-- Reduction of `modifyFirst` at a non-matching head. -/
theorem modifyFirst_cons_neg {q : α → Bool} {f : α → α} {x : α} {xs : List α}
    (hqx : q x = false) : modifyFirst q f (x :: xs) = x :: modifyFirst q f xs := by
  simp [modifyFirst, hqx]

/-- Finding with `p` after modifying the first `p`-match applies the
modification to the found element, provided the modification preserves
`p`. -/
theorem find?_modifyFirst_self (p : α → Bool) (f : α → α) (l : List α)
    (hf : ∀ x, p x = true → p (f x) = true) :
    (modifyFirst p f l).find? p = (l.find? p).map f := by
  induction l with
  | nil => rfl
  | cons x xs ih =>
    by_cases hx : p x = true
    · rw [modifyFirst_cons_pos hx, List.find?_cons_of_pos _ (hf x hx),
        List.find?_cons_of_pos _ hx]
      rfl
    · have hx' : p x = false := by simpa using hx
      rw [modifyFirst_cons_neg hx', List.find?_cons_of_neg _ (by simp [hx']),
        List.find?_cons_of_neg _ (by simp [hx']), ih]

/-- Any element of `modifyFirst q f l` is an element of `l` or the image
under `f` of one. -/
theorem mem_modifyFirst (q : α → Bool) (f : α → α) (l : List α) :
    ∀ y ∈ modifyFirst q f l, y ∈ l ∨ ∃ x ∈ l, y = f x := by
  induction l with
  | nil => intro y hy; simp [modifyFirst] at hy
  | cons x xs ih =>
    intro y hy
    by_cases hx : q x = true
    · rw [modifyFirst_cons_pos hx] at hy
      rcases List.mem_cons.mp hy with rfl | hy
      · exact Or.inr ⟨x, List.mem_cons_self x xs, rfl⟩
      · exact Or.inl (List.mem_cons_of_mem x hy)
    · rw [modifyFirst_cons_neg (by simpa using hx)] at hy
      rcases List.mem_cons.mp hy with rfl | hy
      · exact Or.inl (List.mem_cons_self y xs)
      · rcases ih y hy with h | ⟨z, hz, rfl⟩
        · exact Or.inl (List.mem_cons_of_mem x h)
        · exact Or.inr ⟨z, List.mem_cons_of_mem x hz, rfl⟩

/-- If a `p`-search of the list modified at its first `q`-match finds
`y`, then the unmodified list's `p`-search finds some `x` with `y = x` or
`y = f x`, provided `f` does not change `p`-membership. -/
theorem find?_modifyFirst_cases (p q : α → Bool) (f : α → α) (l : List α)
    (hp : ∀ x, p (f x) = p x) (y : α)
    (hy : (modifyFirst q f l).find? p = some y) :
    ∃ x, l.find? p = some x ∧ (y = x ∨ y = f x) := by
  induction l with
  | nil => simp [modifyFirst] at hy
  | cons x xs ih =>
    by_cases hqx : q x = true
    · rw [modifyFirst_cons_pos hqx] at hy
      by_cases hpx : p x = true
      · have hpfx : p (f x) = true := by rw [hp]; exact hpx
        rw [List.find?_cons_of_pos _ hpfx] at hy
        exact ⟨x, by rw [List.find?_cons_of_pos _ hpx], by
          injection hy with h; exact Or.inr h.symm⟩
      · have hpx' : p x = false := by simpa using hpx
        have hpfx : p (f x) = false := by rw [hp]; exact hpx'
        rw [List.find?_cons_of_neg _ (by simp [hpfx])] at hy
        refine ⟨y, ?_, Or.inl rfl⟩
        rw [List.find?_cons_of_neg _ (by simp [hpx'])]
        exact hy
    · have hqx' : q x = false := by simpa using hqx
      rw [modifyFirst_cons_neg hqx'] at hy
      by_cases hpx : p x = true
      · rw [List.find?_cons_of_pos _ hpx] at hy
        exact ⟨x, by rw [List.find?_cons_of_pos _ hpx], by
          injection hy with h; exact Or.inl h.symm⟩
      · have hpx' : p x = false := by simpa using hpx
        rw [List.find?_cons_of_neg _ (by simp [hpx'])] at hy
        rcases ih hy with ⟨z, hz, hyz⟩
        exact ⟨z, by rw [List.find?_cons_of_neg _ (by simp [hpx'])]; exact hz, hyz⟩

/-- Erasing the first `p`-match from a list holding at most one `p`-match
leaves a list with none. -/
theorem find?_eraseP_of_count (p : α → Bool) (l : List α)
    (h : l.countP p ≤ 1) : (l.eraseP p).find? p = none := by
  induction l with
  | nil => rfl
  | cons x xs ih =>
    by_cases hx : p x = true
    · rw [List.eraseP_cons_of_pos hx]
      rw [List.countP_cons, if_pos hx] at h
      have hzero : xs.countP p = 0 := by omega
      rw [List.find?_eq_none]
      intro y hy
      have := List.countP_eq_zero.mp hzero y hy
      simpa using this
    · have hx' : p x = false := by simpa using hx
      rw [List.eraseP_cons_of_neg (by simp [hx'])]
      rw [List.find?_cons_of_neg _ (by simp [hx'])]
      apply ih
      rw [List.countP_cons, if_neg (by simp [hx'])] at h
      omega

/-- The modelled `uuid` has length equal to its counter value. -/
theorem uuid_length (n : Nat) : (uuid n).length = n := by
  simp [uuid, String.length]

/-- A string shorter than `n` is distinct from `uuid n`. -/
theorem ne_uuid_of_length_lt {s : String} {n : Nat} (h : s.length < n) :
    s ≠ uuid n := by
  intro hs
  rw [hs, uuid_length] at h
  omega

/-- Behaviour of the time parser matches the claim-side description on
every input. -/
theorem parseTime_agrees (s : String) : parseTimeToSeconds s = claimTimeSpec s := by
  unfold parseTimeToSeconds claimTimeSpec
  by_cases hemp : s.data.isEmpty
  · have hs : s = "" := by
      cases s with
      | mk data =>
        cases data with
        | nil => rfl
        | cons a l => simp [List.isEmpty] at hemp
    subst hs
    simp [findNumBefore, findNumAux]
  · by_cases hdig : s.data.all Char.isDigit
    · simp [hemp, hdig]
    · by_cases h0s : s = "0s"
      · simp [hemp, hdig, h0s]
      · simp only [hemp, hdig, h0s, Bool.false_eq_true, if_false,
          Bool.and_false, Bool.false_eq_true]
        split <;> split <;> omega


/-- C10: `parseTimeToSeconds` maps a pure-digit string to that many
seconds and sums the recognized `d`/`h`/`m`/`s` components; every other
input whose recognized components sum to zero — the empty string,
malformed strings such as `"abc"` or `"1x2y"`, and all-zero composites
such as `"0m"` or `"0d0h0m0s"` — silently returns the default 3600
seconds, with the single exception of the exact string `"0s"`, which
returns 0. -/
theorem C10_parse_time_to_seconds :
    (∀ s, parseTimeToSeconds s = claimTimeSpec s) ∧
    parseTimeToSeconds "120" = 120 ∧
    parseTimeToSeconds "1d2h30m10s" = 95410 ∧
    parseTimeToSeconds "" = 3600 ∧
    parseTimeToSeconds "abc" = 3600 ∧
    parseTimeToSeconds "1x2y" = 3600 ∧
    parseTimeToSeconds "0m" = 3600 ∧
    parseTimeToSeconds "0d0h0m0s" = 3600 ∧
    parseTimeToSeconds "0s" = 0 := by
  refine ⟨parseTime_agrees, ?_, ?_, ?_, ?_, ?_, ?_, ?_, ?_⟩ <;> decide

/-- C4: the claim requires `authorize` to reject every `redirect_uri`
that is not string-equal to a trusted URI, including proper substrings;
but `trusted_redirect_uri` is a single string, so
`trusted_redirect_uri.includes(redirectUri)` is substring containment
(contradicting the source's own "exact match" comment): with trusted URI
`https://a.com/cb`, the proper substring `https://a.com/c` is accepted
and a challenge is issued instead of `invalid_request`. -/
theorem C4_redirect_allowlist_substring_accepted :
    strIncludes clientA.trusted_redirect_uri "https://a.com/c" = true ∧
    validateClient stBase "clientA" "https://a.com/c" = ClientCheck.valid ∧
    (handleAuthorize cfgT stBase (QueryVal.one "code") (QueryVal.one "clientA")
      (QueryVal.one "https://a.com/c")).1 =
      AuthorizeResult.ok "clientA" "https://a.com/c" (uuid 5) ∧
    (handleAuthorize cfgT stBase (QueryVal.one "code") (QueryVal.one "clientA")
      (QueryVal.one "https://a.com/cb/")).1 =
      AuthorizeResult.err 400 "invalid_request"
        "redirect_uri does not match any trusted URI" ∧
    (handleAuthorize cfgT stBase (QueryVal.one "code") (QueryVal.one "clientA")
      (QueryVal.one "https://a.com.evil.com/cb")).1 =
      AuthorizeResult.err 400 "invalid_request"
        "redirect_uri does not match any trusted URI" := by
  refine ⟨?_, ?_, ?_, ?_, ?_⟩ <;> decide


/-- Helper for C5: the authorization-code grant's response never depends
on any stored `expires_at`. -/
theorem codeGrant_ignores_expiry (cfg : Config) (st : Store) (t : Nat)
    (code cid : String) (v : Option String) (u i : Bool) :
    (handleAuthorizationCodeGrant cfg (setAllExpiry t st) code cid v u i).1 =
    (handleAuthorizationCodeGrant cfg st code cid v u i).1 := by
  have hfind : findAuthCode (setAllExpiry t st) cid code =
      (findAuthCode st cid code).map (fun d => { d with expires_at := t }) := by
    unfold findAuthCode setAllExpiry
    simp only [List.find?_map]
    rfl
  unfold handleAuthorizationCodeGrant
  rw [hfind]
  rcases findAuthCode st cid code with _ | d
  · rfl
  · obtain ⟨c1, c2, c3, c4, pkc, pkm, used, ua, ea, ca, upa⟩ := d
    simp only [Option.map_some]
    cases used
    · cases pkc
      · rfl
      case some stored =>
        cases v
        · rfl
        case some vv =>
          by_cases hm : pkm = some "S256"
          · by_cases hch : s256Challenge vv = stored
            · simp [hm, hch, setAllExpiry]
            · simp [hm, hch, setAllExpiry]
          · simp [hm, setAllExpiry]
    · rfl

/-- Helper for C5: the verify-signature handler's response never depends
on any stored `expires_at`. -/
theorem verifySig_ignores_expiry (cfg : Config) (st : Store) (t : Nat)
    (params : SignatureParams) (deleteOk : Bool) :
    (handleVerifySignature cfg (setAllExpiry t st) params deleteOk).1 =
    (handleVerifySignature cfg st params deleteOk).1 := by
  have hclient : findClient (setAllExpiry t st) params.clientId =
      findClient st params.clientId := rfl
  have hchal : findChallenge (setAllExpiry t st) params.clientId params.challenge =
      (findChallenge st params.clientId params.challenge).map
        (fun d => { d with expires_at := t }) := by
    unfold findChallenge setAllExpiry
    simp only [List.find?_map]
    rfl
  unfold handleVerifySignature
  rw [hclient, hchal]
  rcases findClient st params.clientId with _ | cd
  · rfl
  · rcases findChallenge st params.clientId params.challenge with _ | chd
    · rfl
    · rfl

/-- Helper for C5: the refresh-token grant's response never depends on
any stored `expires_at`. -/
theorem refreshGrant_ignores_expiry (cfg : Config) (st : Store) (t : Nat)
    (rt cid : String) (r i : Bool) :
    (handleRefreshTokenGrant cfg (setAllExpiry t st) rt cid r i).1 =
    (handleRefreshTokenGrant cfg st rt cid r i).1 := by
  have hfind : findSessionByRefreshToken (setAllExpiry t st) rt =
      (findSessionByRefreshToken st rt).map (fun s => { s with expires_at := t }) := by
    unfold findSessionByRefreshToken setAllExpiry
    simp only [List.find?_map]
    rfl
  unfold handleRefreshTokenGrant
  rw [hfind]
  rcases findSessionByRefreshToken st rt with _ | s
  · rfl
  · obtain ⟨s1, s2, s3, s4, s5, s6, rev, ra, ea, ca, ua⟩ := s
    simp only [Option.map_some]
    cases rev
    · rfl
    · rfl

/-- C5 counterexample: the claim says a record whose `expires_at` lies in
the past but which the TTL reaper has not yet deleted is rejected like a
missing record; in fact all three consumers accept such records.  In
`stExpired` the clock is 1000 ms while every stored artifact expired at
5 ms, yet the authorization-code grant, verify-signature, and the
refresh grant all succeed. -/
theorem C5_expired_records_accepted :
    expiredAuthCode.expires_at < stExpired.now ∧
    expiredChallenge.expires_at < stExpired.now ∧
    expiredSession.expires_at < stExpired.now ∧
    (handleAuthorizationCodeGrant cfgT stExpired "codeX" "clientA" none true true).1 =
      TokenResult.ok (uuid 5) (uuid 6) 3600 ∧
    (handleVerifySignature cfgT stExpired paramsExpired true).1 =
      VerifyResult.redirect "https://a.com/cb" (uuid 5) none ∧
    (handleRefreshTokenGrant cfgT stExpired "R" "clientA" true true).1 =
      TokenResult.ok (uuid 5) (uuid 6) 3600 := by
  refine ⟨?_, ?_, ?_, ?_, ?_, ?_⟩ <;> decide

/-- C5 amended: the consuming operations do not independently verify
`expires_at` at all — their responses are invariant under arbitrary
rewriting of every stored record's `expires_at`; expiry is enforced
solely by the store's TTL deletion. -/
theorem C5_consumers_ignore_expiry (cfg : Config) (st : Store) (t : Nat) :
    (∀ code cid v u i,
      (handleAuthorizationCodeGrant cfg (setAllExpiry t st) code cid v u i).1 =
      (handleAuthorizationCodeGrant cfg st code cid v u i).1) ∧
    (∀ params deleteOk,
      (handleVerifySignature cfg (setAllExpiry t st) params deleteOk).1 =
      (handleVerifySignature cfg st params deleteOk).1) ∧
    (∀ rt cid r i,
      (handleRefreshTokenGrant cfg (setAllExpiry t st) rt cid r i).1 =
      (handleRefreshTokenGrant cfg st rt cid r i).1) :=
  ⟨fun code cid v u i => codeGrant_ignores_expiry cfg st t code cid v u i,
   fun params deleteOk => verifySig_ignores_expiry cfg st t params deleteOk,
   fun rt cid r i => refreshGrant_ignores_expiry cfg st t rt cid r i⟩


/-- C7 counterexample: the claim says the minted AuthCode's PKCE binding
comes from the stored Challenge record, not from any field of the
submitted signed artifact; but the stored Challenge
(`challenge`/`client_id`/`redirect_uri` only) carries no PKCE material at
all, and two artifacts that differ only in their embedded
`pkce_challenge` mint AuthCodes with different bindings against the very
same store. -/
theorem C7_pkce_comes_from_artifact :
    ((handleVerifySignature cfgT stChal (paramsPK "X") true).2.authCodes.map
      (fun d => d.pkce_challenge)) = [some "X"] ∧
    ((handleVerifySignature cfgT stChal (paramsPK "Y") true).2.authCodes.map
      (fun d => d.pkce_challenge)) = [some "Y"] ∧
    stChal.challenges = [liveChallenge] := by
  refine ⟨?_, ?_, ?_⟩ <;> decide

/-- C7 amended: every AuthCode minted by `verify-signature` takes its
`pkce_challenge`, `pkce_challenge_method`, and the `state` echoed into
the redirect from the submitted signed artifact's embedded message
(`signatureParams`); the stored Challenge record, which holds only
`challenge`, `client_id` and `redirect_uri`, contributes no PKCE binding
or state. -/
theorem C7_authcode_carries_artifact_fields (cfg : Config) (st : Store)
    (params : SignatureParams) (deleteOk : Bool) (b c : String)
    (s : Option String) (st' : Store)
    (h : handleVerifySignature cfg st params deleteOk =
      (VerifyResult.redirect b c s, st')) :
    st'.authCodes = st.authCodes ++ [mintedAuthCode cfg st params] ∧
    (mintedAuthCode cfg st params).pkce_challenge = params.pkce_challenge ∧
    (mintedAuthCode cfg st params).pkce_challenge_method =
      params.pkce_challenge_method ∧
    s = params.state ∧ c = uuid st.fresh := by
  unfold handleVerifySignature at h
  rcases hc : findClient st params.clientId with _ | cd <;> rw [hc] at h
  · simp at h
  · rcases hch : findChallenge st params.clientId params.challenge with _ | chd <;>
      rw [hch] at h
    · simp at h
    · simp only [Prod.mk.injEq, VerifyResult.redirect.injEq] at h
      obtain ⟨⟨hb, hcode, hs⟩, hst⟩ := h
      refine ⟨?_, rfl, rfl, hs.symm, hcode.symm⟩
      rw [← hst]
      cases deleteOk <;>
        simp [insertAuthCode, deleteChallenge, mintedAuthCode]

/-- Witness for the C7 theorem at a concrete store and artifact. -/
theorem C7_authcode_carries_artifact_fields_witness :
    ((handleVerifySignature cfgT stChal (paramsPK "X") true).2).authCodes =
      stChal.authCodes ++ [mintedAuthCode cfgT stChal (paramsPK "X")] ∧
    (mintedAuthCode cfgT stChal (paramsPK "X")).pkce_challenge = some "X" :=
  let r := C7_authcode_carries_artifact_fields cfgT stChal (paramsPK "X") true
    "https://a.com/cb" (uuid 5) (some "st8")
    ((handleVerifySignature cfgT stChal (paramsPK "X") true).2) rfl
  ⟨r.1, r.2.1⟩

/-- C8 counterexample: the claim says the persisted Challenge carries the
supplied `state` and PKCE fields with TTL equal to `CHALLENGE_EXPIRATION`
and that the response includes `app_name`; but `handleAuthorize` persists
only `{ challenge, client_id, redirect_uri }` with a hard-coded TTL of
300 seconds (here `CHALLENGE_EXPIRATION` is 180 s), and the 200 body is
`{ client_id, redirect_uri, challenge }` with no `app_name`. -/
theorem C8_authorize_fixed_ttl_no_state :
    ((handleAuthorize cfgT stBase (QueryVal.one "code") (QueryVal.one "clientA")
      (QueryVal.one "https://a.com/cb")).2.challenges.map (fun d => d.expires_at)) =
      [stBase.now + 300 * 1000] ∧
    cfgT.challengeExpiration = 180 ∧
    stBase.now + 300 * 1000 ≠ stBase.now + cfgT.challengeExpiration * 1000 ∧
    (handleAuthorize cfgT stBase (QueryVal.one "code") (QueryVal.one "clientA")
      (QueryVal.one "https://a.com/cb")).1 =
      AuthorizeResult.ok "clientA" "https://a.com/cb" (uuid 5) := by
  refine ⟨?_, ?_, ?_, ?_⟩ <;> decide

/-- C8 amended: for every valid authorize request the operation persists
exactly one Challenge record holding only the supplied `client_id`,
`redirect_uri` and the fresh challenge identifier — no `state` and no
PKCE fields — with a fixed TTL of 300 seconds independent of
`CHALLENGE_EXPIRATION`, and returns a 200 JSON body
`{ client_id, redirect_uri, challenge }` without `app_name`. -/
theorem C8_authorize_persists_minimal_challenge (cfg : Config) (st : Store)
    (rt cid ruri : QueryVal) (c r : String)
    (hp : validateAuthorizeParams cfg rt cid ruri = ParamsResult.ok c r)
    (hc : validateClient st c r = ClientCheck.valid) :
    handleAuthorize cfg st rt cid ruri =
      (AuthorizeResult.ok c r (uuid st.fresh),
       { st with
         challenges := st.challenges ++
           [{ challenge := uuid st.fresh, client_id := c, redirect_uri := r,
              expires_at := st.now + 300 * 1000,
              created_at := st.now, updated_at := st.now }],
         fresh := st.fresh + 1 }) := by
  unfold handleAuthorize
  rw [hp]
  dsimp only
  rw [hc]
  dsimp only [setChallenge]

/-- Witness for the C8 theorem at a concrete valid request. -/
theorem C8_authorize_persists_minimal_challenge_witness :
    handleAuthorize cfgT stBase (QueryVal.one "code") (QueryVal.one "clientA")
      (QueryVal.one "https://a.com/cb") =
      (AuthorizeResult.ok "clientA" "https://a.com/cb" (uuid 5),
       { stBase with
         challenges := stBase.challenges ++
           [{ challenge := uuid 5, client_id := "clientA",
              redirect_uri := "https://a.com/cb",
              expires_at := stBase.now + 300 * 1000,
              created_at := stBase.now, updated_at := stBase.now }],
         fresh := 6 }) :=
  C8_authorize_persists_minimal_challenge cfgT stBase (QueryVal.one "code")
    (QueryVal.one "clientA") (QueryVal.one "https://a.com/cb")
    "clientA" "https://a.com/cb" (by decide) (by decide)


/-- Helper for C1: a successful authorization-code grant (with the
`used`-flag update succeeding) presupposes a stored, unused AuthCode and
leaves the store with that AuthCode marked used. -/
theorem codeGrant_ok_spec (cfg : Config) (st : Store) (code clientId : String)
    (v : Option String) (insertOk : Bool) (a r : String) (e : Nat) (st' : Store)
    (h : handleAuthorizationCodeGrant cfg st code clientId v true insertOk =
      (TokenResult.ok a r e, st')) :
    (∃ d, findAuthCode st clientId code = some d ∧ d.used = false) ∧
    st'.authCodes = modifyFirst
      (fun d => d.client_id = clientId && d.auth_code = code)
      (fun d => { d with used := true, used_at := some st.now }) st.authCodes := by
  unfold handleAuthorizationCodeGrant at h
  rcases hf : findAuthCode st clientId code with _ | d <;> rw [hf] at h <;>
    dsimp only at h
  · simp at h
  · by_cases hu : d.used = true
    · rw [if_pos hu] at h
      simp at h
    · rw [if_neg hu] at h
      have hused : d.used = false := by simpa using hu
      refine ⟨⟨d, rfl, hused⟩, ?_⟩
      rcases hpk : d.pkce_challenge with _ | stored <;> rw [hpk] at h <;>
        dsimp only at h
      · simp only [Prod.mk.injEq, TokenResult.ok.injEq] at h
        obtain ⟨-, hst⟩ := h
        rw [← hst]
        cases insertOk <;> simp [insertSession, updateAuthCodeUsed]
      · rcases v with _ | vv <;> dsimp only at h
        · simp at h
        · by_cases hm : d.pkce_challenge_method = some "S256"
          · rw [if_pos hm] at h
            by_cases hch : s256Challenge vv = stored
            · rw [if_neg (by simp [hch])] at h
              simp only [Prod.mk.injEq, TokenResult.ok.injEq] at h
              obtain ⟨-, hst⟩ := h
              rw [← hst]
              cases insertOk <;> simp [insertSession, updateAuthCodeUsed]
            · rw [if_pos hch] at h
              simp at h
          · rw [if_neg hm] at h
            simp at h

/-- C1: `token(grant_type=authorization_code)` honors a code only when a
stored AuthCode exists with `used = false`; on success it marks the
record `used = true` with `used_at` in the same logical step, so a second
request presenting the same code finds the record still present but used
and fails with HTTP 400 "Invalid or used code" — observably "already
used", not "not found". -/
theorem C1_authcode_single_use (cfg : Config) (st : Store)
    (code clientId : String) (v : Option String) (insertOk : Bool)
    (a r : String) (e : Nat) (st' : Store)
    (h : handleAuthorizationCodeGrant cfg st code clientId v true insertOk =
      (TokenResult.ok a r e, st')) :
    (∃ d, findAuthCode st clientId code = some d ∧ d.used = false) ∧
    (∃ d, findAuthCode st' clientId code = some d ∧ d.used = true ∧
      d.used_at = some st.now) ∧
    (∀ v2 u2 i2, (handleAuthorizationCodeGrant cfg st' code clientId v2 u2 i2).1 =
      TokenResult.err 400 "Invalid or used code" none) := by
  obtain ⟨⟨d, hf, hused⟩, hac⟩ :=
    codeGrant_ok_spec cfg st code clientId v insertOk a r e st' h
  have hfind2 : findAuthCode st' clientId code =
      some { d with used := true, used_at := some st.now } := by
    unfold findAuthCode at hf ⊢
    rw [hac,
      find?_modifyFirst_self
        (fun d => decide (d.client_id = clientId) && decide (d.auth_code = code))
        (fun d => { d with used := true, used_at := some st.now })
        st.authCodes (fun x hx => hx),
      hf]
    rfl
  refine ⟨⟨d, hf, hused⟩, ⟨_, hfind2, rfl, rfl⟩, ?_⟩
  intro v2 u2 i2
  unfold handleAuthorizationCodeGrant
  rw [hfind2]
  rfl

/-- Witness for the C1 theorem: after a successful redemption of
`"codeA"` in the concrete store `stCode`, redeeming it again fails with
"Invalid or used code". -/
theorem C1_authcode_single_use_witness :
    (handleAuthorizationCodeGrant cfgT
      ((handleAuthorizationCodeGrant cfgT stCode "codeA" "clientA" none true true).2)
      "codeA" "clientA" none true true).1 =
      TokenResult.err 400 "Invalid or used code" none :=
  (C1_authcode_single_use cfgT stCode "codeA" "clientA" none true
    (uuid 5) (uuid 6) 3600
    ((handleAuthorizationCodeGrant cfgT stCode "codeA" "clientA" none true true).2)
    rfl).2.2 none true true


/-- C3: after `verify-signature` successfully mints an AuthCode for a
challenge value (with the challenge delete succeeding), the Challenge
record is gone from the store, and a second `verify-signature` call
presenting the same challenge fails with 400 "Invalid or expired
challenge" — each Challenge is consumed at most once.  The `countP`
hypothesis is the store's unique index on `(client_id, challenge)`. -/
theorem C3_challenge_single_use (cfg : Config) (st : Store)
    (params : SignatureParams) (b c : String) (s : Option String) (st' : Store)
    (huniq : st.challenges.countP
      (fun d => d.client_id = params.clientId && d.challenge = params.challenge) ≤ 1)
    (h : handleVerifySignature cfg st params true =
      (VerifyResult.redirect b c s, st')) :
    findChallenge st' params.clientId params.challenge = none ∧
    (∀ d2, (handleVerifySignature cfg st' params d2).1 =
      VerifyResult.err 400 "Invalid or expired challenge") := by
  unfold handleVerifySignature at h
  rcases hc : findClient st params.clientId with _ | cd <;> rw [hc] at h <;>
    dsimp only at h
  · simp at h
  · rcases hch : findChallenge st params.clientId params.challenge with _ | chd <;>
      rw [hch] at h <;> dsimp only at h
    · simp at h
    · simp only [Prod.mk.injEq, VerifyResult.redirect.injEq] at h
      obtain ⟨-, hst⟩ := h
      have hchs : st'.challenges = st.challenges.eraseP
          (fun d => d.client_id = params.clientId && d.challenge = params.challenge) := by
        rw [← hst]
        simp [insertAuthCode, deleteChallenge]
      have hnone : findChallenge st' params.clientId params.challenge = none := by
        unfold findChallenge
        rw [hchs]
        exact find?_eraseP_of_count _ _ huniq
      refine ⟨hnone, ?_⟩
      intro d2
      have hcl : findClient st' params.clientId = some cd := by
        unfold findClient at hc ⊢
        rw [show st'.clients = st.clients from by
          rw [← hst]; simp [insertAuthCode, deleteChallenge]]
        exact hc
      unfold handleVerifySignature
      rw [hcl]
      dsimp only
      rw [hnone]

/-- Witness for the C3 theorem: consuming `"chal1"` in the concrete store
`stChal` removes the Challenge, and a second presentation fails. -/
theorem C3_challenge_single_use_witness :
    findChallenge ((handleVerifySignature cfgT stChal (paramsPK "X") true).2)
      "clientA" "chal1" = none ∧
    (handleVerifySignature cfgT
      ((handleVerifySignature cfgT stChal (paramsPK "X") true).2)
      (paramsPK "X") true).1 =
      VerifyResult.err 400 "Invalid or expired challenge" :=
  let r := C3_challenge_single_use cfgT stChal (paramsPK "X")
    "https://a.com/cb" (uuid 5) (some "st8")
    ((handleVerifySignature cfgT stChal (paramsPK "X") true).2)
    (by decide) rfl
  ⟨r.1, r.2 true⟩


/-- C6: `calculatePKCEChallenge(verifier, "S256")` is the unpadded
base64url encoding of SHA-256(verifier) (checked against the RFC 7636
example vector) and every other method throws; and when the stored
AuthCode carries a `pkce_challenge`, the authorization-code grant
succeeds only if the challenge recomputed from the presented
`code_verifier` under S256 equals the stored value byte for byte, a
mismatch yielding `invalid_grant` ("code_verifier does not match
code_challenge"). -/
theorem C6_pkce_verification :
    (∀ v, calculatePKCEChallenge v "S256" =
      Except.ok (String.mk (base64urlNoPad (sha256 (utf8Encode v))))) ∧
    calculatePKCEChallenge "dBjftJeZ4CVP-mB92K27uhbUJU1p1r_wW1gFWFOEjXk" "S256" =
      Except.ok "E9Melhoa2OwvFrEMTJguCHaoeK1t8URWbuGJSstw-cM" ∧
    (∀ v m, m ≠ "S256" →
      calculatePKCEChallenge v m =
        Except.error ("Unsupported PKCE method: " ++ m)) ∧
    (∀ cfg st code cid v u i a r e st' d ch,
      handleAuthorizationCodeGrant cfg st code cid v u i =
        (TokenResult.ok a r e, st') →
      findAuthCode st cid code = some d →
      d.pkce_challenge = some ch →
      ∃ vv, v = some vv ∧ d.pkce_challenge_method = some "S256" ∧
        s256Challenge vv = ch) ∧
    (∀ cfg st code cid vv u i d ch,
      findAuthCode st cid code = some d → d.used = false →
      d.pkce_challenge = some ch → d.pkce_challenge_method = some "S256" →
      s256Challenge vv ≠ ch →
      (handleAuthorizationCodeGrant cfg st code cid (some vv) u i).1 =
        TokenResult.err 400 "invalid_grant"
          (some "code_verifier does not match code_challenge")) := by
  refine ⟨fun v => rfl, by rw [show calculatePKCEChallenge
    "dBjftJeZ4CVP-mB92K27uhbUJU1p1r_wW1gFWFOEjXk" "S256" =
    Except.ok (s256Challenge "dBjftJeZ4CVP-mB92K27uhbUJU1p1r_wW1gFWFOEjXk") from rfl,
    show s256Challenge "dBjftJeZ4CVP-mB92K27uhbUJU1p1r_wW1gFWFOEjXk" =
      "E9Melhoa2OwvFrEMTJguCHaoeK1t8URWbuGJSstw-cM" from by decide],
    fun v m hm => ?_, ?_, ?_⟩
  · unfold calculatePKCEChallenge
    rw [if_neg hm]
  · intro cfg st code cid v u i a r e st' d ch h hf hpk
    unfold handleAuthorizationCodeGrant at h
    rw [hf] at h
    dsimp only at h
    by_cases hu : d.used = true
    · rw [if_pos hu] at h
      simp at h
    · rw [if_neg hu] at h
      rw [hpk] at h
      dsimp only at h
      rcases v with _ | vv <;> dsimp only at h
      · simp at h
      · by_cases hm : d.pkce_challenge_method = some "S256"
        · rw [if_pos hm] at h
          by_cases hch : s256Challenge vv = ch
          · exact ⟨vv, rfl, hm, hch⟩
          · rw [if_pos hch] at h
            simp at h
        · rw [if_neg hm] at h
          simp at h
  · intro cfg st code cid vv u i d ch hf hused hpk hm hch
    unfold handleAuthorizationCodeGrant
    rw [hf]
    dsimp only
    rw [if_neg (by simp [hused])]
    rw [hpk]
    dsimp only
    rw [hm, if_pos rfl, if_pos hch]

/-- Witness for the C6 theorem: redeeming the PKCE-bound AuthCode of
`stPkce` with a wrong verifier is rejected with `invalid_grant`. -/
theorem C6_pkce_verification_witness :
    (handleAuthorizationCodeGrant cfgT stPkce "codeP" "clientA"
      (some "wrong") true true).1 =
      TokenResult.err 400 "invalid_grant"
        (some "code_verifier does not match code_challenge") :=
  C6_pkce_verification.2.2.2.2 cfgT stPkce "codeP" "clientA" "wrong" true true
    pkceAuthCode "E9Melhoa2OwvFrEMTJguCHaoeK1t8URWbuGJSstw-cM"
    (by decide) (by decide) (by decide) (by decide) (by decide)


/-- Helper for C9: after `setAccessTokenBlacklist`, the token is present
in the blacklist (overwrite or fresh insert). -/
theorem blacklist_recorded (st : Store) (j : String) :
    ((setAccessTokenBlacklist st j).blacklist.find?
      (fun b => b.jwt_id = j)).isSome := by
  unfold setAccessTokenBlacklist
  by_cases hex : (st.blacklist.find? (fun b => b.jwt_id = j)).isSome
  · rw [if_pos hex]
    dsimp only
    rw [find?_modifyFirst_self (fun b => decide (b.jwt_id = j))
      (fun b => { b with revoked_at := st.now }) st.blacklist (fun x hx => hx)]
    rcases hfb : st.blacklist.find? (fun b => b.jwt_id = j) with _ | bb
    · rw [hfb] at hex
      simp at hex
    · rw [hfb]
      rfl
  · rw [if_neg hex]
    dsimp only
    rw [List.find?_append]
    rcases hfb : st.blacklist.find? (fun b => b.jwt_id = j) with _ | bb <;> rw [hfb]
    · simp
    · rfl

/-- C9: presenting an invalid bearer token to `userinfo` yields 401
`invalid_token` and records the token in the access-token blacklist;
presenting the same invalid token twice raises no error and reports
`invalid_token` both times, the blacklist write being an idempotent keyed
overwrite. -/
theorem C9_invalid_token_idempotent (cfg : Config)
    (verify : String → Option JWTPayload) (st : Store) (T : String)
    (htrim : jsTrimChars T.data = T.data)
    (hbad : verify T = none) :
    (handleUserinfo cfg verify st (some ("Bearer " ++ T))).1 =
      UserinfoResult.err 401 "invalid_token"
        (some "The access token is invalid or has expired") ∧
    (((handleUserinfo cfg verify st (some ("Bearer " ++ T))).2).blacklist.find?
      (fun b => b.jwt_id = T)).isSome ∧
    (handleUserinfo cfg verify
      ((handleUserinfo cfg verify st (some ("Bearer " ++ T))).2)
      (some ("Bearer " ++ T))).1 =
      UserinfoResult.err 401 "invalid_token"
        (some "The access token is invalid or has expired") ∧
    ((handleUserinfo cfg verify
      ((handleUserinfo cfg verify st (some ("Bearer " ++ T))).2)
      (some ("Bearer " ++ T))).2.blacklist.find?
      (fun b => b.jwt_id = T)).isSome := by
  have hrun : ∀ s : Store, handleUserinfo cfg verify s (some ("Bearer " ++ T)) =
      (UserinfoResult.err 401 "invalid_token"
        (some "The access token is invalid or has expired"),
       setAccessTokenBlacklist s T) := by
    intro s
    have hstart : startsWithBearer ("Bearer " ++ T) = true := by
      unfold startsWithBearer
      rw [String.data_append]
      rw [show ("Bearer ".data ++ T.data).take 7 = "Bearer ".data from
        List.take_left' rfl]
      simp
    have htok : bearerToken ("Bearer " ++ T) = T := by
      unfold bearerToken
      rw [String.data_append]
      rw [show ("Bearer ".data ++ T.data).drop 7 = T.data from
        List.drop_left' rfl]
      rw [htrim]
    unfold handleUserinfo verifyAndRevokeJWT
    dsimp only
    rw [hstart, htok, hbad]
    rfl
  refine ⟨?_, ?_, ?_, ?_⟩ <;>
    simp [hrun, blacklist_recorded]

/-- Witness for the C9 theorem: the all-rejecting verifier with the
concrete token `"tokT"` twice in succession. -/
theorem C9_invalid_token_idempotent_witness :
    (handleUserinfo cfgT rejectAll
      ((handleUserinfo cfgT rejectAll stBase (some ("Bearer " ++ "tokT"))).2)
      (some ("Bearer " ++ "tokT"))).1 =
      UserinfoResult.err 401 "invalid_token"
        (some "The access token is invalid or has expired") :=
  (C9_invalid_token_idempotent cfgT rejectAll stBase "tokT"
    (by decide) rfl).2.2.1


/-- Strings of different lengths differ. -/
theorem str_ne_of_length_lt {s t : String} (h : s.length < t.length) : s ≠ t := by
  intro hst
  rw [hst] at h
  omega

/-- If the first `p`-match of `l` is `s0`, `q` holds of `s0` and of no
other element, and `f` preserves `p`, then modifying the first `q`-match
turns the first `p`-match into `f s0`. -/
theorem find?_modifyFirst_target (p q : α → Bool) (f : α → α) (l : List α)
    (s0 : α) (hfirst : l.find? p = some s0) (hq0 : q s0 = true)
    (huniq : ∀ x ∈ l, q x = true → x = s0)
    (hpf : ∀ x, p (f x) = p x) :
    (modifyFirst q f l).find? p = some (f s0) := by
  induction l with
  | nil => simp at hfirst
  | cons x xs ih =>
    by_cases hpx : p x = true
    · rw [List.find?_cons_of_pos _ hpx] at hfirst
      injection hfirst with hx
      subst hx
      rw [modifyFirst_cons_pos hq0]
      have : p (f x) = true := by rw [hpf]; exact hpx
      rw [List.find?_cons_of_pos _ this]
    · have hpx' : p x = false := by simpa using hpx
      rw [List.find?_cons_of_neg _ (by simp [hpx'])] at hfirst
      have hs0p : p s0 = true := List.find?_some hfirst
      have hqx : q x = false := by
        by_contra hq
        have hx0 : x = s0 := huniq x (List.mem_cons_self x xs) (by simpa using hq)
        rw [hx0, hs0p] at hpx'
        simp at hpx'
      rw [modifyFirst_cons_neg hqx, List.find?_cons_of_neg _ (by simp [hpx'])]
      exact ih hfirst (fun y hy => huniq y (List.mem_cons_of_mem x hy))

/-- Lemma: `revokeFirst` does not change the session ids. -/
theorem map_sid_revokeFirst (sid : String) (t : Nat) (l : List SessionDoc) :
    (revokeFirst sid t l).map (fun s => s.session_id) =
      l.map (fun s => s.session_id) := by
  unfold revokeFirst
  induction l with
  | nil => rfl
  | cons x xs ih =>
    by_cases hx : (x.session_id = sid)
    · rw [modifyFirst_cons_pos (by simpa using hx)]
      simp
    · rw [modifyFirst_cons_neg (by simpa using hx)]
      simpa using ih

/-- Lemma: `deadL` survives revoking any first session by id. -/
theorem deadL_revokeFirst (R sid : String) (t : Nat) (l : List SessionDoc)
    (hdead : deadL R l) : deadL R (revokeFirst sid t l) := by
  intro s hs
  unfold revokeFirst at hs
  rcases find?_modifyFirst_cases (fun x => decide (x.refresh_token = R))
      (fun s => decide (s.session_id = sid))
      (fun s => { s with revoked := true, revoked_at := some t }) l
      (fun x => rfl) s hs with ⟨x, hx, hsx | hsx⟩
  · exact hsx ▸ hdead x hx
  · rw [hsx]

/-- Lemma: `wfL` survives revoking any first session by id. -/
theorem wfL_revokeFirst (sid : String) (t n : Nat) (l : List SessionDoc)
    (hwf : wfL l n) : wfL (revokeFirst sid t l) n := by
  obtain ⟨hlen, hpair⟩ := hwf
  constructor
  · intro s hs
    rcases mem_modifyFirst _ _ l s hs with h | ⟨x, hx, rfl⟩
    · exact hlen s h
    · exact hlen x hx
  · have h1 := (@List.pairwise_map SessionDoc String
      (fun s => s.session_id) (fun x y => x ≠ y) l).mpr hpair
    rw [← map_sid_revokeFirst sid t l] at h1
    exact (@List.pairwise_map SessionDoc String
      (fun s => s.session_id) (fun x y => x ≠ y) (revokeFirst sid t l)).mp h1

/-- Lemma: `wfL` is monotone in the counter. -/
theorem wfL_mono {l : List SessionDoc} {n m : Nat} (h : n ≤ m) (hwf : wfL l n) :
    wfL l m := by
  obtain ⟨hlen, hpair⟩ := hwf
  refine ⟨fun s hs => ?_, hpair⟩
  have := hlen s hs
  omega

/-- Lemma: `deadL` survives appending a session whose refresh token is at least
as long as the counter bounding `R`. -/
theorem deadL_append (R : String) (n : Nat) (l : List SessionDoc)
    (rs : SessionDoc) (hR : R.length < n) (hrs : n ≤ rs.refresh_token.length)
    (hdead : deadL R l) : deadL R (l ++ [rs]) := by
  intro s hs
  rw [List.find?_append] at hs
  rcases hf : l.find? (fun x => x.refresh_token = R) with _ | y <;> rw [hf] at hs <;>
    dsimp only [Option.or] at hs
  · have hne : rs.refresh_token ≠ R := by
      intro he
      rw [he] at hrs
      omega
    rw [List.find?_cons_of_neg _ (by simp [hne])] at hs
    simp at hs
  · injection hs with hsy
    exact hsy ▸ hdead y hf

/-- Lemma: `wfL` survives appending a session with fresh token and id whose
lengths lie between the old and new counter. -/
theorem wfL_append (n m : Nat) (l : List SessionDoc) (rs : SessionDoc)
    (_hn : n ≤ m) (ht1 : n ≤ rs.refresh_token.length)
    (ht2 : rs.refresh_token.length < m)
    (hs1 : n ≤ rs.session_id.length) (hs2 : rs.session_id.length < m)
    (hwf : wfL l n) : wfL (l ++ [rs]) m := by
  obtain ⟨hlen, hpair⟩ := hwf
  constructor
  · intro s hs
    rcases List.mem_append.mp hs with h | h
    · have := hlen s h
      omega
    · rw [List.mem_singleton.mp h]
      omega
  · rw [List.pairwise_append]
    refine ⟨hpair, List.pairwise_singleton _ _, ?_⟩
    intro a ha b hb
    rw [List.mem_singleton.mp hb]
    exact str_ne_of_length_lt (by have := (hlen a ha).2; omega)


/-- A dead refresh token keeps failing with "Invalid or revoked session". -/
theorem refresh_fails_of_dead (cfg : Config) (st : Store) (R cid : String)
    (b1 b2 : Bool) (hdead : deadL R st.sessions) :
    (handleRefreshTokenGrant cfg st R cid b1 b2).1 =
      TokenResult.err 400 "Invalid or revoked session" none := by
  unfold handleRefreshTokenGrant
  rcases hf : findSessionByRefreshToken st R with _ | s
  · rfl
  · dsimp only
    rw [if_pos (hdead s hf)]

/-- Single-transition preservation of `tokenDead`: unchanged sessions, a
first-match revocation, or either followed by appending one session with
fresh token and id. -/
theorem tokenDead_extend (R : String) (st st' : Store)
    (hfresh : st.fresh ≤ st'.fresh)
    (hshape :
      st'.sessions = st.sessions ∨
      (∃ sid t, st'.sessions = revokeFirst sid t st.sessions) ∨
      (∃ rs l0, (l0 = st.sessions ∨ ∃ sid t, l0 = revokeFirst sid t st.sessions) ∧
        st'.sessions = l0 ++ [rs] ∧
        st.fresh ≤ rs.refresh_token.length ∧
        rs.refresh_token.length < st'.fresh ∧
        st.fresh ≤ rs.session_id.length ∧ rs.session_id.length < st'.fresh))
    (hd : tokenDead R st) : tokenDead R st' := by
  obtain ⟨hdead, hwf, hR⟩ := hd
  refine ⟨?_, ?_, by omega⟩ <;>
    rcases hshape with hs | ⟨sid, t, hs⟩ | ⟨rs, l0, hl0, hs, h1, h2, h3, h4⟩ <;>
      rw [hs]
  · exact hdead
  · exact deadL_revokeFirst R sid t st.sessions hdead
  · have hd0 : deadL R l0 := by
      rcases hl0 with rfl | ⟨sid, t, rfl⟩
      · exact hdead
      · exact deadL_revokeFirst R sid t st.sessions hdead
    exact deadL_append R st.fresh l0 rs hR h1 hd0
  · exact wfL_mono hfresh hwf
  · exact wfL_mono hfresh (wfL_revokeFirst sid t st.fresh st.sessions hwf)
  · have hw0 : wfL l0 st.fresh := by
      rcases hl0 with rfl | ⟨sid, t, rfl⟩
      · exact hwf
      · exact wfL_revokeFirst sid t st.fresh st.sessions hwf
    exact wfL_append st.fresh st'.fresh l0 rs hfresh h1 h2 h3 h4 hw0


/-- Sessions and counter are untouched by a blacklist write. -/
theorem setBlacklist_sessions (st : Store) (j : String) :
    (setAccessTokenBlacklist st j).sessions = st.sessions ∧
    (setAccessTokenBlacklist st j).fresh = st.fresh := by
  unfold setAccessTokenBlacklist
  split <;> exact ⟨rfl, rfl⟩

/-- The token-issuing tail shared by both grants preserves `tokenDead`:
it never changes a session other than revoking one, and any session it
appends carries identifiers drawn fresh from the counter. -/
theorem tokenDead_grant_tail (cfg : Config) (R : String) (st st1 : Store)
    (cid addr pk : String) (i : Bool) (hd : tokenDead R st)
    (h1 : (st1.sessions = st.sessions ∨
      ∃ sid t, st1.sessions = revokeFirst sid t st.sessions) ∧ st1.now = st.now) :
    tokenDead R
      { (if i = true then
          insertSession st1 cfg (uuid (st.fresh + 2)) cid (uuid (st.fresh + 1))
            (uuid st.fresh) addr pk
         else st1) with fresh := st.fresh + 3 } := by
  obtain ⟨hses, hnow⟩ := h1
  cases i <;> dsimp only
  · refine tokenDead_extend R st _ (Nat.le_add_right _ 3) ?_ hd
    rcases hses with hs | ⟨sid, t, hs⟩
    · exact Or.inl hs
    · exact Or.inr (Or.inl ⟨sid, t, hs⟩)
  · refine tokenDead_extend R st _ (Nat.le_add_right _ 3)
      (Or.inr (Or.inr ⟨_, st1.sessions, ?_, rfl, ?_, ?_, ?_, ?_⟩)) hd
    · rcases hses with hs | ⟨sid, t, hs⟩
      · exact Or.inl hs
      · exact Or.inr ⟨sid, t, hs⟩
    · dsimp only
      rw [uuid_length]
      omega
    · dsimp only
      rw [uuid_length]
      omega
    · dsimp only
      rw [uuid_length]
      omega
    · dsimp only
      rw [uuid_length]
      omega

/-- Every request step preserves the permanent deadness of a refresh
token: no handler un-revokes a session, deletes one, or can mint a
session carrying an already-seen token. -/
theorem step_preserves_tokenDead (cfg : Config)
    (verify : String → Option JWTPayload) (R : String) (st : Store) (op : Op)
    (hd : tokenDead R st) : tokenDead R (step cfg verify st op) := by
  cases op with
  | authorize rt cid ruri =>
    dsimp only [step]
    unfold handleAuthorize
    cases hv : validateAuthorizeParams cfg rt cid ruri with
    | ok c r =>
      try dsimp only
      cases hc : validateClient st c r with
      | valid =>
        try dsimp only
        exact tokenDead_extend R st _ (Nat.le_succ _) (Or.inl rfl) hd
      | invalid status code msg =>
        try dsimp only
        exact tokenDead_extend R st _ (le_refl _) (Or.inl rfl) hd
    | invalid ec msg =>
      try dsimp only
      exact tokenDead_extend R st _ (le_refl _) (Or.inl rfl) hd
  | verifySig params deleteOk =>
    dsimp only [step]
    unfold handleVerifySignature
    rcases hc : findClient st params.clientId with _ | cd <;> (try dsimp only)
    · exact tokenDead_extend R st _ (le_refl _) (Or.inl rfl) hd
    · rcases hch : findChallenge st params.clientId params.challenge with _ | chd <;>
        try dsimp only
      · exact tokenDead_extend R st _ (le_refl _) (Or.inl rfl) hd
      · cases deleteOk <;>
          exact tokenDead_extend R st _ (Nat.le_succ _) (Or.inl rfl) hd
  | codeGrant code cid v u i =>
    dsimp only [step]
    unfold handleAuthorizationCodeGrant
    rcases hf : findAuthCode st cid code with _ | d <;> (try dsimp only)
    · exact tokenDead_extend R st _ (le_refl _) (Or.inl rfl) hd
    · by_cases hu : d.used = true
      · rw [if_pos hu]
        exact tokenDead_extend R st _ (le_refl _) (Or.inl rfl) hd
      · rw [if_neg hu]
        have hissue := tokenDead_grant_tail cfg R st
          (if u = true then updateAuthCodeUsed st cid code else st) cid
          d.symbol_address d.symbol_public_key i hd
          (by cases u <;> exact ⟨Or.inl rfl, rfl⟩)
        rcases hpk : d.pkce_challenge with _ | stored <;> (try dsimp only)
        · exact hissue
        · rcases v with _ | vv <;> (try dsimp only)
          · exact tokenDead_extend R st _ (le_refl _) (Or.inl rfl) hd
          · by_cases hm : d.pkce_challenge_method = some "S256"
            · rw [if_pos hm]
              by_cases hch : s256Challenge vv = stored
              · rw [if_neg (by simp [hch])]
                exact hissue
              · rw [if_pos hch]
                exact tokenDead_extend R st _ (le_refl _) (Or.inl rfl) hd
            · rw [if_neg hm]
              exact tokenDead_extend R st _ (le_refl _) (Or.inl rfl) hd
  | refreshGrant rt cid r i =>
    dsimp only [step]
    unfold handleRefreshTokenGrant
    rcases hf : findSessionByRefreshToken st rt with _ | s <;> (try dsimp only)
    · exact tokenDead_extend R st _ (le_refl _) (Or.inl rfl) hd
    · by_cases hrev : s.revoked = true
      · rw [if_pos hrev]
        exact tokenDead_extend R st _ (le_refl _) (Or.inl rfl) hd
      · rw [if_neg hrev]
        try dsimp only
        exact tokenDead_grant_tail cfg R st
          (if r = true then updateSessionRevoke st s.session_id else st) cid
          s.symbol_address s.symbol_public_key i hd
          (by cases r
              · exact ⟨Or.inl rfl, rfl⟩
              · exact ⟨Or.inr ⟨s.session_id, st.now, rfl⟩, rfl⟩)
  | userinfo h =>
    dsimp only [step]
    unfold handleUserinfo
    rcases h with _ | auth <;> (try dsimp only)
    · exact tokenDead_extend R st _ (le_refl _) (Or.inl rfl) hd
    · by_cases hb : startsWithBearer auth = true
      · rw [hb]
        try dsimp only
        unfold verifyAndRevokeJWT
        rcases hv : verify (bearerToken auth) with _ | payload <;> (try dsimp only)
        · refine tokenDead_extend R st _ ?_ (Or.inl ?_) hd
          · exact le_of_eq ((setBlacklist_sessions st (bearerToken auth)).2).symm
          · exact (setBlacklist_sessions st (bearerToken auth)).1
        · exact tokenDead_extend R st _ (le_refl _) (Or.inl rfl) hd
      · have hb' : startsWithBearer auth = false := by simpa using hb
        rw [hb']
        try dsimp only
        exact tokenDead_extend R st _ (le_refl _) (Or.inl rfl) hd
  | logout rt r =>
    dsimp only [step]
    unfold handleLogout
    rcases rt with _ | rtv <;> (try dsimp only)
    · exact tokenDead_extend R st _ (le_refl _) (Or.inl rfl) hd
    · by_cases he : rtv = ""
      · rw [if_pos he]
        exact tokenDead_extend R st _ (le_refl _) (Or.inl rfl) hd
      · rw [if_neg he]
        try dsimp only
        rcases hf : findSessionByRefreshToken st rtv with _ | s <;> (try dsimp only)
        · exact tokenDead_extend R st _ (le_refl _) (Or.inl rfl) hd
        · by_cases hrev : s.revoked = true
          · rw [if_pos hrev]
            exact tokenDead_extend R st _ (le_refl _) (Or.inl rfl) hd
          · rw [if_neg hrev]
            try dsimp only
            cases r
            · exact tokenDead_extend R st _ (le_refl _) (Or.inl rfl) hd
            · exact tokenDead_extend R st _ (le_refl _)
                (Or.inr (Or.inl ⟨s.session_id, st.now, rfl⟩)) hd


/-- Helper for C2: structure of a successful refresh grant — there is a
live session holding the token, the response tokens are the two fresh
draws, and the post-store revokes that session and (write permitting)
appends the rotated one. -/
theorem refreshGrant_ok_spec (cfg : Config) (st : Store) (R cid : String)
    (revokeOk insertOk : Bool) (a r : String) (e : Nat) (st' : Store)
    (h : handleRefreshTokenGrant cfg st R cid revokeOk insertOk =
      (TokenResult.ok a r e, st')) :
    ∃ s0, findSessionByRefreshToken st R = some s0 ∧ s0.revoked = false ∧
      a = uuid st.fresh ∧ r = uuid (st.fresh + 1) ∧ e = cfg.jwtExpiresIn ∧
      st' = { (if insertOk = true then
                insertSession
                  (if revokeOk = true then updateSessionRevoke st s0.session_id
                   else st)
                  cfg (uuid (st.fresh + 2)) cid (uuid (st.fresh + 1))
                  (uuid st.fresh) s0.symbol_address s0.symbol_public_key
              else (if revokeOk = true then updateSessionRevoke st s0.session_id
                    else st)) with fresh := st.fresh + 3 } := by
  unfold handleRefreshTokenGrant at h
  rcases hf : findSessionByRefreshToken st R with _ | s <;> rw [hf] at h <;>
    dsimp only at h
  · simp at h
  · by_cases hrev : s.revoked = true
    · rw [if_pos hrev] at h
      simp at h
    · rw [if_neg hrev] at h
      simp only [Prod.mk.injEq, TokenResult.ok.injEq] at h
      obtain ⟨⟨ha, hr, he⟩, hst⟩ := h
      refine ⟨s, rfl, by simpa using hrev, ha.symm, hr.symm, he.symm, ?_⟩
      rw [← hst]

/-- Helper for C2: deadness survives any sequence of requests. -/
theorem foldl_preserves_tokenDead (cfg : Config)
    (verify : String → Option JWTPayload) (R : String) :
    ∀ (ops : List Op) (st0 : Store), tokenDead R st0 →
      tokenDead R (List.foldl (step cfg verify) st0 ops)
  | [], _, h => h
  | op :: ops, st0, h =>
    foldl_preserves_tokenDead cfg verify R ops _
      (step_preserves_tokenDead cfg verify R st0 op h)


/-- Helper for C2: a live session makes the refresh grant answer the two
fresh tokens. -/
theorem refresh_ok_fst (cfg : Config) (st : Store) (R cid : String)
    (b1 b2 : Bool) (s : SessionDoc)
    (hfind : findSessionByRefreshToken st R = some s)
    (hrev : s.revoked = false) :
    (handleRefreshTokenGrant cfg st R cid b1 b2).1 =
      TokenResult.ok (uuid st.fresh) (uuid (st.fresh + 1)) cfg.jwtExpiresIn := by
  unfold handleRefreshTokenGrant
  rw [hfind]
  dsimp only
  rw [if_neg (by simp [hrev])]

/-- Core of C2: a successful refresh grant presupposes a live session,
leaves the presented token permanently dead, keeps the store well formed,
advances the counter by three, and (when the session insert succeeded)
stores a live session under the newly issued token. -/
theorem refresh_rotation_core (cfg : Config) (st : Store) (R cid : String)
    (insertOk : Bool) (a r : String) (e : Nat) (st' : Store)
    (hwf : sessionsWF st)
    (h : handleRefreshTokenGrant cfg st R cid true insertOk =
      (TokenResult.ok a r e, st')) :
    (∃ s0, findSessionByRefreshToken st R = some s0 ∧ s0.revoked = false) ∧
    tokenDead R st' ∧ sessionsWF st' ∧ st'.fresh = st.fresh + 3 ∧
    (insertOk = true →
      ∃ NS, findSessionByRefreshToken st' r = some NS ∧ NS.revoked = false) := by
  obtain ⟨s0, hf, hrev, ha, hr, he, hst⟩ :=
    refreshGrant_ok_spec cfg st R cid true insertOk a r e st' h
  obtain ⟨hlen, hpair⟩ := hwf
  have hs0mem : s0 ∈ st.sessions := List.mem_of_find?_eq_some hf
  have hs0tok : s0.refresh_token = R := by
    have := List.find?_some hf
    simpa using this
  have hRlen : R.length < st.fresh := by
    have h1 := (hlen s0 hs0mem).1
    rw [hs0tok] at h1
    exact h1
  have huniqsid : ∀ x ∈ st.sessions,
      decide (x.session_id = s0.session_id) = true → x = s0 := by
    intro x hx hqx
    by_contra hne
    have hsym : Symmetric (fun a b : SessionDoc => a.session_id ≠ b.session_id) :=
      fun a b hab hba => hab hba.symm
    exact (hpair.forall hsym hx hs0mem hne) (by simpa using hqx)
  have hfirstRev : (revokeFirst s0.session_id st.now st.sessions).find?
      (fun x => x.refresh_token = R) =
      some { s0 with revoked := true, revoked_at := some st.now } := by
    unfold revokeFirst
    exact find?_modifyFirst_target _ _ _ st.sessions s0 hf (by simp)
      huniqsid (fun x => rfl)
  have hrevbound : ∀ x ∈ revokeFirst s0.session_id st.now st.sessions,
      x.refresh_token.length < st.fresh ∧ x.session_id.length < st.fresh := by
    intro x hx
    unfold revokeFirst at hx
    rcases mem_modifyFirst _ _ _ x hx with hmem | ⟨y, hy, rfl⟩
    · exact hlen x hmem
    · exact hlen y hy
  have hrevwf : wfL (revokeFirst s0.session_id st.now st.sessions) st.fresh :=
    wfL_revokeFirst s0.session_id st.now st.fresh st.sessions ⟨hlen, hpair⟩
  subst hst
  subst hr
  cases insertOk with
  | false =>
    refine ⟨⟨s0, hf, hrev⟩, ⟨?_, ?_, ?_⟩, ?_, rfl, by simp⟩
    · show deadL R (revokeFirst s0.session_id st.now st.sessions)
      intro s hs
      rw [hfirstRev] at hs
      injection hs with hs
      rw [← hs]
    · show wfL (revokeFirst s0.session_id st.now st.sessions) (st.fresh + 3)
      exact wfL_mono (by omega) hrevwf
    · show R.length < st.fresh + 3
      omega
    · show wfL (revokeFirst s0.session_id st.now st.sessions) (st.fresh + 3)
      exact wfL_mono (by omega) hrevwf
  | true =>
    have hnone2 : (revokeFirst s0.session_id st.now st.sessions).find?
        (fun x => x.refresh_token = uuid (st.fresh + 1)) = none := by
      rw [List.find?_eq_none]
      intro x hx
      have hb := (hrevbound x hx).1
      simp only [decide_eq_true_eq]
      intro heq
      rw [heq, uuid_length] at hb
      omega
    have hfind2 : (revokeFirst s0.session_id st.now st.sessions ++
        [mintedSession cfg st cid s0]).find?
        (fun x => x.refresh_token = uuid (st.fresh + 1)) =
        some (mintedSession cfg st cid s0) := by
      rw [List.find?_append, hnone2]
      dsimp only [Option.or]
      rw [List.find?_cons_of_pos _ (by simp [mintedSession])]
    have hwf2 : wfL (revokeFirst s0.session_id st.now st.sessions ++
        [mintedSession cfg st cid s0]) (st.fresh + 3) := by
      refine wfL_append st.fresh (st.fresh + 3) _ _ (by omega) ?_ ?_ ?_ ?_ hrevwf
      · show st.fresh ≤ (uuid (st.fresh + 1)).length
        rw [uuid_length]
        omega
      · show (uuid (st.fresh + 1)).length < st.fresh + 3
        rw [uuid_length]
        omega
      · show st.fresh ≤ (uuid (st.fresh + 2)).length
        rw [uuid_length]
        omega
      · show (uuid (st.fresh + 2)).length < st.fresh + 3
        rw [uuid_length]
        omega
    refine ⟨⟨s0, hf, hrev⟩, ⟨?_, ?_, ?_⟩, ?_, rfl,
      fun _ => ⟨mintedSession cfg st cid s0, ?_, rfl⟩⟩
    · show deadL R (revokeFirst s0.session_id st.now st.sessions ++
        [mintedSession cfg st cid s0])
      intro s hs
      rw [List.find?_append, hfirstRev] at hs
      dsimp only [Option.or] at hs
      injection hs with hs
      rw [← hs]
    · exact hwf2
    · show R.length < st.fresh + 3
      omega
    · exact hwf2
    · exact hfind2


/-- C2: refresh rotation is hard and fail-closed. If the refresh grant
presented with token `R` succeeds and answers the rotated pair, then the
presented session existed live, the grant revokes it in the same step
(even when persisting the new session failed, `insertOk = false`), every
subsequent grant presenting `R` — after any further sequence of requests
— fails with 400 "Invalid or revoked session", and when the new session
was persisted the freshly issued token `r` succeeds exactly once: one
grant with `r` answers the next rotated pair, after which `r` itself is
dead. -/
theorem C2_refresh_rotation (cfg : Config)
    (verify : String → Option JWTPayload) (st : Store) (R cid : String)
    (insertOk : Bool) (a r : String) (e : Nat) (st' : Store)
    (hwf : sessionsWF st)
    (h : handleRefreshTokenGrant cfg st R cid true insertOk =
      (TokenResult.ok a r e, st')) :
    (∃ s0, findSessionByRefreshToken st R = some s0 ∧ s0.revoked = false) ∧
    (∀ s, findSessionByRefreshToken st' R = some s → s.revoked = true) ∧
    (∀ (ops : List Op) (cid2 : String) (b1 b2 : Bool),
      (handleRefreshTokenGrant cfg (List.foldl (step cfg verify) st' ops)
        R cid2 b1 b2).1 =
        TokenResult.err 400 "Invalid or revoked session" none) ∧
    (insertOk = true → ∃ st2,
      handleRefreshTokenGrant cfg st' r cid true true =
        (TokenResult.ok (uuid (st.fresh + 3)) (uuid (st.fresh + 4))
          cfg.jwtExpiresIn, st2) ∧
      ∀ (cid3 : String) (b1 b2 : Bool),
        (handleRefreshTokenGrant cfg st2 r cid3 b1 b2).1 =
          TokenResult.err 400 "Invalid or revoked session" none) := by
  obtain ⟨hlive, hdead, hwf2, hfresh, hnew⟩ :=
    refresh_rotation_core cfg st R cid insertOk a r e st' hwf h
  refine ⟨hlive, ?_, ?_, ?_⟩
  · intro s hs
    exact hdead.1 s hs
  · intro ops cid2 b1 b2
    exact refresh_fails_of_dead cfg _ R cid2 b1 b2
      (foldl_preserves_tokenDead cfg verify R ops st' hdead).1
  · intro hins
    obtain ⟨NS, hfindNS, hNSrev⟩ := hnew hins
    have h1 := refresh_ok_fst cfg st' r cid true true NS hfindNS hNSrev
    have h2 : handleRefreshTokenGrant cfg st' r cid true true =
        (TokenResult.ok (uuid st'.fresh) (uuid (st'.fresh + 1))
          cfg.jwtExpiresIn,
          (handleRefreshTokenGrant cfg st' r cid true true).2) := by
      rw [← h1]
    obtain ⟨-, hdead2, -, -, -⟩ :=
      refresh_rotation_core cfg st' r cid true (uuid st'.fresh)
        (uuid (st'.fresh + 1)) cfg.jwtExpiresIn
        ((handleRefreshTokenGrant cfg st' r cid true true).2) hwf2 h2
    refine ⟨(handleRefreshTokenGrant cfg st' r cid true true).2, ?_, ?_⟩
    · rw [hfresh] at h2
      have harith : st.fresh + 3 + 1 = st.fresh + 4 := rfl
      rw [harith] at h2
      exact h2
    · intro cid3 b1 b2
      exact refresh_fails_of_dead cfg _ r cid3 b1 b2 hdead2.1

/-- Witness for C2 at the concrete store `stSess` (one live session
holding refresh token "R", counter 5): the hypotheses hold and the grant
rotates as claimed. -/
theorem C2_refresh_rotation_witness :
    sessionsWF stSess ∧
    ((∃ s0, findSessionByRefreshToken stSess "R" = some s0 ∧
        s0.revoked = false) ∧
     (∀ s, findSessionByRefreshToken
        ((handleRefreshTokenGrant cfgT stSess "R" "clientA" true true).2)
        "R" = some s → s.revoked = true) ∧
     (∀ (ops : List Op) (cid2 : String) (b1 b2 : Bool),
       (handleRefreshTokenGrant cfgT
         (List.foldl (step cfgT rejectAll)
           ((handleRefreshTokenGrant cfgT stSess "R" "clientA" true true).2)
           ops) "R" cid2 b1 b2).1 =
         TokenResult.err 400 "Invalid or revoked session" none) ∧
     (true = true → ∃ st2,
       handleRefreshTokenGrant cfgT
         ((handleRefreshTokenGrant cfgT stSess "R" "clientA" true true).2)
         (uuid 6) "clientA" true true =
         (TokenResult.ok (uuid 8) (uuid 9) cfgT.jwtExpiresIn, st2) ∧
       ∀ (cid3 : String) (b1 b2 : Bool),
         (handleRefreshTokenGrant cfgT st2 (uuid 6) cid3 b1 b2).1 =
           TokenResult.err 400 "Invalid or revoked session" none)) :=
  ⟨⟨by decide, by decide⟩,
   C2_refresh_rotation cfgT rejectAll stSess "R" "clientA" true
     (uuid 5) (uuid 6) 3600
     ((handleRefreshTokenGrant cfgT stSess "R" "clientA" true true).2)
     ⟨by decide, by decide⟩ rfl⟩

end SymbolSignOn
